import Mathlib

/-!
# Verification of the GTM Autonomous Agent (`src/main.py`)

A shallow embedding of the date-normalization, aggregation, notification and
logging logic of `src/main.py`, together with theorems settling the frozen
claims about it.

Modelling conventions, fixed once and used throughout:

* A Python `str`-or-`None` value is `PyVal := Option String` (`none` is Python
  `None`, i.e. JSON `null`).  A possibly-missing dictionary slot is
  `Option PyVal` (outer `none` means the key is absent), and `dictGet` is
  Python `dict.get(key, default)`.
* Machine time is exact integer arithmetic: "now" is a parameter
  `now : Int` in epoch milliseconds, and `datetime.now() - timedelta(...)`
  becomes subtraction of the exact millisecond count.  The process local
  timezone is modelled as UTC (the deployment target runs UTC), so a naive
  ISO string and a `Z`-suffixed one denote the same instant.
* Python `float` values that occur here (deal amounts, revenue) are modelled
  as exact rationals `ℚ`; IEEE-754 rounding is outside the model.  `inf`/`nan`
  float literals are not modelled (they never occur in CRM amounts).
* Fallible Python code (statements that can raise) returns `Except String _`;
  a `try/except` block around a record is an `Option`/skip.
* External HTTP traffic is a parameter: the single response a call would
  receive is passed in as `Except String (HttpResp _)` (`.error` = the
  transport raised) and outgoing calls are returned as data.
-/

namespace GTM

/-- A Python string-or-`None` value (`none` = Python `None` / JSON `null`). -/
abbrev PyVal := Option String

/-- Python `d.get(key, default)`: an absent slot yields the default, a present
slot yields its value (which may itself be `None`). -/
def dictGet (slot : Option PyVal) (dflt : PyVal) : PyVal :=
  slot.getD dflt

/-- Python `str(v)` as used in f-strings: `None` prints as `"None"`. -/
def pyStr (v : PyVal) : String :=
  match v with
  | none => "None"
  | some s => s

/-- Python `str.lower()` on the character list (the strings that occur here are
ASCII, where Lean's `Char.toLower` and Python agree). -/
def pyLower (s : String) : List Char :=
  s.toList.map Char.toLower

/-- Whether `needle` is a leading block of `hay`. -/
def listHasPre (needle hay : List Char) : Bool :=
  match needle, hay with
  | [], _ => true
  | _ :: _, [] => false
  | c :: cs, h :: hs => c == h && listHasPre cs hs

/-- Python `needle in hay` on strings, over character lists. -/
def listHasSub (needle : List Char) : List Char → Bool
  | [] => needle.isEmpty
  | h :: hs => listHasPre needle (h :: hs) || listHasSub needle hs

/-- Python membership test `needle in hay` for strings. -/
def pyInStr (needle hay : String) : Bool :=
  listHasSub needle.toList hay.toList

/-- Python `c in s` for a single character. -/
def pyCharIn (c : Char) (s : String) : Bool :=
  s.toList.any (· == c)

/-- Python slicing `s[:n]`. -/
def pyTake (n : Nat) (s : String) : String :=
  ⟨s.toList.take n⟩

theorem listHasPre_append (needle rest : List Char) :
    listHasPre needle (needle ++ rest) = true := by
  induction needle with
  | nil => rfl
  | cons c cs ih => simp [listHasPre, ih]

theorem listHasSub_of_append (needle pre post : List Char) :
    listHasSub needle (pre ++ needle ++ post) = true := by
  induction pre with
  | nil =>
    cases needle with
    | nil => cases post <;> simp [listHasSub, listHasPre, List.isEmpty]
    | cons c cs =>
      simp only [List.nil_append, List.cons_append, listHasSub,
        Bool.or_eq_true]
      left
      simpa [List.append_assoc] using listHasPre_append (c :: cs) post
  | cons h hs ih =>
    simp only [List.cons_append, listHasSub, Bool.or_eq_true]
    right
    simpa using ih

/-- Python ASCII whitespace stripped by `int()` / `float()`. -/
def pyIsSpace (c : Char) : Bool :=
  c == ' ' || c == '\t' || c == '\n' || c == '\r' || c == '\x0b' || c == '\x0c'

/-- Strip leading and trailing Python whitespace. -/
def pyStrip (cs : List Char) : List Char :=
  ((cs.dropWhile pyIsSpace).reverse.dropWhile pyIsSpace).reverse

/-- The numeric value of an ASCII digit character. -/
def digitVal (c : Char) : Nat := c.toNat - 48

/-- A digit with its value, `none` for a non-digit. -/
def readDigit (c : Char) : Option Nat :=
  if c.isDigit then some (digitVal c) else none

/-- The tail of a Python numeric-literal digit run: after the first digit,
single underscores are allowed between digits (`1_000`), never doubled,
leading or trailing.  Returns the digit characters with underscores removed. -/
def pyDigitsRest : List Char → Option (List Char)
  | [] => some []
  | '_' :: c :: cs =>
    if c.isDigit then (pyDigitsRest cs).map (c :: ·) else none
  | ['_'] => none
  | c :: cs =>
    if c.isDigit then (pyDigitsRest cs).map (c :: ·) else none

/-- A full Python digit run: at least one digit, then `pyDigitsRest`. -/
def pyDigits : List Char → Option (List Char)
  | [] => none
  | c :: cs =>
    if c.isDigit then (pyDigitsRest cs).map (c :: ·) else none

/-- The value of a list of digit characters, most significant first. -/
def digitsVal (ds : List Char) : Nat :=
  ds.foldl (fun a c => a * 10 + digitVal c) 0

/-- Python `int(s)` on a string: optional surrounding whitespace, optional
sign, then a decimal digit run (with legal underscores).  `none` models the
`ValueError` raised on anything else.  (Non-ASCII digits are outside the
model.) -/
def parsePyInt (s : String) : Option Int :=
  match pyStrip s.toList with
  | '+' :: rest => (pyDigits rest).map (fun ds => (digitsVal ds : Int))
  | '-' :: rest => (pyDigits rest).map (fun ds => -(digitsVal ds : Int))
  | rest => (pyDigits rest).map (fun ds => (digitsVal ds : Int))

/-- Continuation of a digit run after at least one digit has been read:
further digits, possibly separated by single underscores.  Returns the digits
read and the unconsumed remainder. -/
def digitRunCont : List Char → List Char × List Char
  | [] => ([], [])
  | '_' :: d :: cs =>
    if d.isDigit then
      let (ds, r) := digitRunCont cs
      (d :: ds, r)
    else ([], '_' :: d :: cs)
  | ['_'] => ([], ['_'])
  | c :: cs =>
    if c.isDigit then
      let (ds, r) := digitRunCont cs
      (c :: ds, r)
    else ([], c :: cs)

/-- A digit run that must start with a digit (Python numeric-literal field). -/
def digitRun : List Char → Option (List Char × List Char)
  | [] => none
  | c :: cs =>
    if c.isDigit then
      let (ds, r) := digitRunCont cs
      some (c :: ds, r)
    else none

/-- The exponent suffix of a Python float literal (`e`/`E`, optional sign,
digit run), which must consume the rest of the input.  `some 0` on empty
input (no exponent). -/
def parseExpPart : List Char → Option Int
  | [] => some 0
  | e :: cs =>
    if e == 'e' || e == 'E' then
      match cs with
      | '+' :: r =>
        (digitRun r).bind fun dr =>
          if dr.2.isEmpty then some (digitsVal dr.1 : Int) else none
      | '-' :: r =>
        (digitRun r).bind fun dr =>
          if dr.2.isEmpty then some (-(digitsVal dr.1 : Int)) else none
      | r =>
        (digitRun r).bind fun dr =>
          if dr.2.isEmpty then some (digitsVal dr.1 : Int) else none
    else none

/-- The unsigned magnitude of a Python float literal:
`digits [. [digits]] [exp]` or `. digits [exp]`. -/
def parseFloatMag (cs : List Char) : Option ℚ :=
  match digitRun cs with
  | some (ip, r1) =>
    match r1 with
    | '.' :: r2 =>
      match digitRun r2 with
      | some (fp, r3) =>
        (parseExpPart r3).map fun e =>
          ((digitsVal ip : ℚ) + (digitsVal fp : ℚ) / (10 : ℚ) ^ fp.length)
            * (10 : ℚ) ^ e
      | none =>
        (parseExpPart r2).map fun e => (digitsVal ip : ℚ) * (10 : ℚ) ^ e
    | r =>
      (parseExpPart r).map fun e => (digitsVal ip : ℚ) * (10 : ℚ) ^ e
  | none =>
    match cs with
    | '.' :: r2 =>
      (digitRun r2).bind fun fr =>
        (parseExpPart fr.2).map fun e =>
          ((digitsVal fr.1 : ℚ) / (10 : ℚ) ^ fr.1.length) * (10 : ℚ) ^ e
    | _ => none

/-- Python `float(s)` on a string, as an exact rational.  `none` models
`ValueError` (and the unmodelled `inf`/`nan` literals, which do not occur in
CRM amounts). -/
def parsePyFloat (s : String) : Option ℚ :=
  match pyStrip s.toList with
  | '+' :: rest => parseFloatMag rest
  | '-' :: rest => (parseFloatMag rest).map (fun q => -q)
  | rest => parseFloatMag rest

/-! ## ISO-8601 parsing (`datetime.fromisoformat`) and epoch conversion

The jobs parse `createdate` / `hs_lastmodifieddate` with
`datetime.fromisoformat(s.replace('Z', '+00:00'))` and convert with
`int(dt.timestamp() * 1000)`.  The model covers the fixed-width format the
CRM emits — `YYYY-MM-DDTHH:MM:SS`, optional fraction of 1–6 digits, optional
`±HH:MM` offset — and treats a naive datetime as UTC (the process timezone).
-/

/-- Read exactly `w` digit characters, folding them onto `acc`. -/
def readN : Nat → Nat → List Char → Option (Nat × List Char)
  | 0, acc, cs => some (acc, cs)
  | w + 1, acc, c :: cs =>
    match readDigit c with
    | some d => readN w (acc * 10 + d) cs
    | none => none
  | _ + 1, _, [] => none

/-- Consume one expected character. -/
def expectCh (c : Char) : List Char → Option (List Char)
  | d :: cs => if d == c then some cs else none
  | [] => none

/-- Consume a maximal digit run, counting digits and folding the value. -/
def grabDigits : Nat → Nat → List Char → Nat × Nat × List Char
  | cnt, acc, c :: cs =>
    match readDigit c with
    | some d => grabDigits (cnt + 1) (acc * 10 + d) cs
    | none => (cnt, acc, c :: cs)
  | cnt, acc, [] => (cnt, acc, [])

/-- The optional fractional-seconds field: `.` followed by 1–6 digits,
yielding microseconds. -/
def readFrac : List Char → Option (Nat × List Char)
  | '.' :: cs =>
    let t := grabDigits 0 0 cs
    if 1 ≤ t.1 ∧ t.1 ≤ 6 then some (t.2.1 * 10 ^ (6 - t.1), t.2.2)
    else none
  | cs => some (0, cs)

/-- The optional UTC-offset field `±HH:MM`, in minutes.  A missing offset is
a naive datetime, interpreted with the process timezone (modelled UTC). -/
def readOffset : List Char → Option (Int × List Char)
  | [] => some (0, [])
  | '+' :: cs =>
    (readN 2 0 cs).bind fun (oh, cs) =>
      (expectCh ':' cs).bind fun cs =>
        (readN 2 0 cs).bind fun (om, cs) =>
          if oh ≤ 23 ∧ om ≤ 59 then some ((oh * 60 + om : Nat), cs) else none
  | '-' :: cs =>
    (readN 2 0 cs).bind fun (oh, cs) =>
      (expectCh ':' cs).bind fun cs =>
        (readN 2 0 cs).bind fun (om, cs) =>
          if oh ≤ 23 ∧ om ≤ 59 then some (-(oh * 60 + om : Nat), cs) else none
  | _ :: _ => none

/-- Python `s.replace('Z', '+00:00')` over the character list. -/
def pyReplaceZ : List Char → List Char
  | [] => []
  | c :: cs =>
    if c = 'Z' then '+' :: '0' :: '0' :: ':' :: '0' :: '0' :: pyReplaceZ cs
    else c :: pyReplaceZ cs

/-- Gregorian leap year. -/
def isLeap (y : Nat) : Bool :=
  y % 4 == 0 && (y % 100 != 0 || y % 400 == 0)

/-- Days in a month of the proleptic Gregorian calendar. -/
def daysInMonth (y m : Nat) : Nat :=
  match m with
  | 1 => 31 | 2 => if isLeap y then 29 else 28 | 3 => 31 | 4 => 30
  | 5 => 31 | 6 => 30 | 7 => 31 | 8 => 31 | 9 => 30 | 10 => 31
  | 11 => 30 | 12 => 31 | _ => 0

/-- Days since 1970-01-01 of a civil date (Howard Hinnant's
`days_from_civil`; `Int./` is floor division for the positive divisors
used here, as the algorithm requires). -/
def daysFromCivil (y m d : Nat) : Int :=
  let y' : Int := if m ≤ 2 then (y : Int) - 1 else (y : Int)
  let era : Int := y' / 400
  let yoe : Int := y' - era * 400
  let mp : Int := if 2 < m then (m : Int) - 3 else (m : Int) + 9
  let doy : Int := (153 * mp + 2) / 5 + (d : Int) - 1
  let doe : Int := yoe * 365 + yoe / 4 - yoe / 100 + doy
  era * 146097 + doe - 719468

/-- The components of a parsed datetime (fraction in microseconds). -/
structure DateTimeParts where
  year : Nat
  month : Nat
  day : Nat
  hour : Nat
  minute : Nat
  second : Nat
  micro : Nat
  deriving DecidableEq, Repr

/-- The range checks `datetime` performs on construction. -/
def validPartsB (y mo d h mi s : Nat) : Bool :=
  1 ≤ y && y ≤ 9999 && 1 ≤ mo && mo ≤ 12 && 1 ≤ d && d ≤ daysInMonth y mo
    && h ≤ 23 && mi ≤ 59 && s ≤ 59

/-- `datetime.fromisoformat` on a character list: fixed-width date and time,
optional fraction, optional offset, nothing trailing. -/
def parseIsoList (cs : List Char) : Option (DateTimeParts × Int) :=
  (readN 4 0 cs).bind fun (y, cs) =>
    (expectCh '-' cs).bind fun cs =>
      (readN 2 0 cs).bind fun (mo, cs) =>
        (expectCh '-' cs).bind fun cs =>
          (readN 2 0 cs).bind fun (d, cs) =>
            (expectCh 'T' cs).bind fun cs =>
              (readN 2 0 cs).bind fun (h, cs) =>
                (expectCh ':' cs).bind fun cs =>
                  (readN 2 0 cs).bind fun (mi, cs) =>
                    (expectCh ':' cs).bind fun cs =>
                      (readN 2 0 cs).bind fun (s, cs) =>
                        (readFrac cs).bind fun (micro, cs) =>
                          (readOffset cs).bind fun (off, cs) =>
                            if cs.isEmpty ∧ validPartsB y mo d h mi s then
                              some (⟨y, mo, d, h, mi, s, micro⟩, off)
                            else none

/-- `int(dt.timestamp() * 1000)` of a parsed datetime with the given offset
in minutes: exact microsecond arithmetic, truncated toward zero like Python
`int()`. -/
def epochMsOfParts (p : DateTimeParts) (offMinutes : Int) : Int :=
  let days := daysFromCivil p.year p.month p.day
  let secs : Int := days * 86400 + p.hour * 3600 + p.minute * 60 + p.second
  (secs * 1000000 + (p.micro : Int) - offMinutes * 60000000).tdiv 1000

/-- The ISO branch of the date normalizer:
`int(datetime.fromisoformat(s.replace('Z', '+00:00')).timestamp() * 1000)`. -/
def parseIsoMs (s : String) : Option Int :=
  (parseIsoList (pyReplaceZ s.toList)).map fun pr => epochMsOfParts pr.1 pr.2

/-- The date normalizer shared by the jobs (`morning_brief_job`,
`deal_health_check_job`, `generate_weekly_report`, `weekly_report`): an
ISO-8601 string (detected by a literal `T`) is parsed and converted to epoch
milliseconds, anything else is parsed as a decimal numeral; `none` models a
caught `ValueError`/`TypeError` (the record is skipped). -/
def normalizeRaw (v : PyVal) : Option Int :=
  match v with
  | none => none
  | some s => if pyCharIn 'T' s then parseIsoMs s else parsePyInt s

/-- An ASCII digit character (total; callers keep the argument below ten). -/
def digitChar : Nat → Char
  | 0 => '0' | 1 => '1' | 2 => '2' | 3 => '3' | 4 => '4'
  | 5 => '5' | 6 => '6' | 7 => '7' | 8 => '8' | _ + 9 => '9'

/-- A number zero-padded to width `w`, most significant digit first. -/
def padNum : Nat → Nat → List Char
  | 0, _ => []
  | w + 1, n => digitChar (n / 10 ^ w) :: padNum w (n % 10 ^ w)

/-- The canonical `Z`-suffixed ISO-8601 rendering of datetime components,
with a 3-digit millisecond fraction when it is nonzero (the shape the CRM
emits). -/
def renderIso (p : DateTimeParts) : String :=
  ⟨padNum 4 p.year ++ '-' :: padNum 2 p.month ++ '-' :: padNum 2 p.day ++
    'T' :: padNum 2 p.hour ++ ':' :: padNum 2 p.minute ++
    ':' :: padNum 2 p.second ++
    (if p.micro = 0 then [] else '.' :: padNum 3 (p.micro / 1000)) ++ ['Z']⟩

/-! ## Agent state: activity log and metrics -/

/-- One activity-log record.  The wall-clock timestamp and the optional
structured payload of `log_action` carry no claim content and are omitted. -/
structure LogEntry where
  type : String
  message : String
  deriving DecidableEq, Repr

/-- The process-wide counters of `metrics` (the `last_run` map and
`uptime_start` carry no claim content and are omitted). -/
structure Metrics where
  leads_analyzed : Nat
  deals_monitored : Nat
  interventions_made : Nat
  alerts_sent : Nat
  deriving DecidableEq, Repr

/-- The shared mutable state: `agent_log` plus `metrics`. -/
structure AgentState where
  agent_log : List LogEntry
  metrics : Metrics
  deriving DecidableEq, Repr

/-- The body of `log_action` on the log list: `insert(0, entry)`, then
`pop()` of the oldest (last) entry when the length exceeds 200. -/
def logAppend (e : LogEntry) (l : List LogEntry) : List LogEntry :=
  let l' := e :: l
  if 200 < l'.length then l'.dropLast else l'

/-- `log_action`: record an entry in the bounded activity log. -/
def log_action (ty msg : String) (st : AgentState) : AgentState :=
  { st with agent_log := logAppend ⟨ty, msg⟩ st.agent_log }

/-- A whole run of appends from the empty log (entries oldest-first). -/
def logFold (es : List LogEntry) : List LogEntry :=
  es.foldl (fun l e => logAppend e l) []

/-- `send_slack`: the single outgoing webhook POST is modelled by `resp`
(the status the transport would return; `.error` = `requests.post` raised)
and by the returned list of attempted posts.  The `blocks` argument only
adds a payload field and is omitted. -/
def send_slack (cfg : Option String) (resp : Except String Nat)
    (message : String) (st : AgentState) : Bool × AgentState × List String :=
  if cfg = none ∨ cfg = some "" ∨ cfg = some "demo-mode" then
    (true, log_action "SLACK" ("Demo mode: " ++ pyTake 100 message) st, [])
  else
    match resp with
    | .error e =>
      (false, log_action "ERROR" ("Slack error: " ++ e) st, [message])
    | .ok code =>
      if code = 200 then
        let st' := { st with metrics :=
          { st.metrics with alerts_sent := st.metrics.alerts_sent + 1 } }
        (true, log_action "SLACK" "Message sent successfully" st', [message])
      else
        (false, log_action "ERROR" ("Slack failed: " ++ toString code) st,
          [message])

/-! ## CRM client -/

/-- An HTTP response: status, body text, and the payload the caller reads
out of `response.json()`. -/
structure HttpResp (α : Type) where
  status : Nat
  text : String
  payload : α

/-- `hubspot_request`: token check, dispatch, uniform error-to-`None`
mapping.  `tr` is the response the transport would produce (`.error` = the
HTTP call raised).  An unsupported verb returns `None` without logging, as
in the source. -/
def hubspot_request {α : Type} (token : Option String)
    (tr : Except String (HttpResp α)) (method endpoint : String)
    (st : AgentState) : Option (HttpResp α) × AgentState :=
  if token = none ∨ token = some "" then
    (none, log_action "ERROR" "HubSpot token not configured" st)
  else if method = "GET" ∨ method = "POST" ∨ method = "PATCH" ∨ method = "PUT"
  then
    match tr with
    | .error e =>
      (none, log_action "ERROR" ("HubSpot request exception: " ++ e) st)
    | .ok r =>
      if r.status = 200 ∨ r.status = 201 then (some r, st)
      else
        let errText := if r.text = "" then "No error details"
          else pyTake 300 r.text
        (none, log_action "ERROR"
          ("HubSpot " ++ method ++ " " ++ endpoint ++ " - Status " ++
            toString r.status ++ ": " ++ errText) st)
  else (none, st)

/-- The contact properties the jobs read (an absent `properties` dict is the
all-absent record). -/
structure ContactProps where
  createdate : Option PyVal := none
  lead_score_ml : Option PyVal := none
  deriving DecidableEq, Repr

/-- A CRM contact. -/
structure Contact where
  id : String := ""
  properties : ContactProps
  deriving DecidableEq, Repr

/-- The deal properties the jobs read. -/
structure DealProps where
  dealname : Option PyVal := none
  dealstage : Option PyVal := none
  amount : Option PyVal := none
  hs_lastmodifieddate : Option PyVal := none
  deriving DecidableEq, Repr

/-- A CRM deal. -/
structure Deal where
  id : String
  properties : DealProps
  deriving DecidableEq, Repr

/-- `get_hubspot_contacts`: `result.get('results', []) if result else []`.
The response payload is the parsed `results` array (`none` = the JSON had no
`results` key). -/
def get_hubspot_contacts (token : Option String)
    (tr : Except String (HttpResp (Option (List Contact))))
    (st : AgentState) : List Contact × AgentState :=
  match hubspot_request token tr "GET" "/crm/v3/objects/contacts" st with
  | (some r, st') => (r.payload.getD [], st')
  | (none, st') => ([], st')

/-- `get_hubspot_deals`, same error-to-empty mapping as the contacts call. -/
def get_hubspot_deals (token : Option String)
    (tr : Except String (HttpResp (Option (List Deal))))
    (st : AgentState) : List Deal × AgentState :=
  match hubspot_request token tr "GET" "/crm/v3/objects/deals" st with
  | (some r, st') => (r.payload.getD [], st')
  | (none, st') => ([], st')

/-! ## Shared aggregation pieces -/

/-- The normalized `createdate` of a contact
(`c.get('properties', {}).get('createdate', '0')` fed to the normalizer). -/
def contactCreatedate (c : Contact) : Option Int :=
  normalizeRaw (dictGet c.properties.createdate (some "0"))

/-- The date-window loop shared by `morning_brief_job` (24 h cutoff),
`generate_weekly_report` and `weekly_report` (7-day cutoff): keep a contact
iff its normalized `createdate` is strictly greater than the cutoff; a
record whose date fails to parse is skipped by the `except: continue`. -/
def recentByCreatedate (cutoff : Int) : List Contact → List Contact
  | [] => []
  | c :: cs =>
    match contactCreatedate c with
    | some ms =>
      if cutoff < ms then c :: recentByCreatedate cutoff cs
      else recentByCreatedate cutoff cs
    | none => recentByCreatedate cutoff cs

/-- `d.get('properties', {}).get('dealstage', '').lower()`: raises
(`AttributeError`) when the property is JSON `null`. -/
def dealStageLower (d : Deal) : Except String (List Char) :=
  match dictGet d.properties.dealstage (some "") with
  | none => .error "AttributeError: NoneType object has no attribute lower"
  | some s => .ok (pyLower s)

/-- A list filter whose predicate may raise. -/
def exFilter {σ : Type} (p : σ → Except String Bool) :
    List σ → Except String (List σ)
  | [] => .ok []
  | x :: xs =>
    (p x).bind fun b =>
      (exFilter p xs).map fun r => if b then x :: r else r

/-- The open-deal filter (`'closed' not in dealstage.lower()`). -/
def openDeals (deals : List Deal) : Except String (List Deal) :=
  exFilter (fun d => (dealStageLower d).map
    fun sl => !listHasSub "closed".toList sl) deals

/-- The `'closed' in dealstage.lower()` filter of the weekly reports. -/
def weeklyClosedOf (deals : List Deal) : Except String (List Deal) :=
  exFilter (fun d => (dealStageLower d).map
    fun sl => listHasSub "closed".toList sl) deals

/-- The `'won' in dealstage.lower()` filter of the weekly reports. -/
def wonOf (deals : List Deal) : Except String (List Deal) :=
  exFilter (fun d => (dealStageLower d).map
    fun sl => listHasSub "won".toList sl) deals

/-- The guarded amount contribution used by the pipeline-value and
endpoint-revenue loops: `amount = props.get('amount')` (absent and JSON
`null` both give `None`, skipped as 0); a present string is `float`-parsed
and raises on garbage. -/
def guardedAmountTerm (d : Deal) : Except String ℚ :=
  match dictGet d.properties.amount none with
  | none => .ok 0
  | some s =>
    match parsePyFloat s with
    | some q => .ok q
    | none => .error "ValueError: could not convert string to float"

/-- Sum a per-deal amount contribution over a list. -/
def sumAmounts (term : Deal → Except String ℚ) :
    List Deal → Except String ℚ
  | [] => .ok 0
  | d :: ds =>
    (term d).bind fun q => (sumAmounts term ds).map fun r => q + r

/-- `morning_brief_job` aggregation core: the 24-hour lead window, the open
deals and the pipeline value (the fetches, LLM call and Slack post wrap
around this). -/
def morningBriefCore (now : Int) (contacts : List Contact)
    (deals : List Deal) :
    Except String (List Contact × List Deal × ℚ) :=
  let recent := recentByCreatedate (now - 86400000) contacts
  (openDeals deals).bind fun od =>
    (sumAmounts guardedAmountTerm od).map fun pv => (recent, od, pv)

/-! ## Python number formatting (`f'{v:,.0f}'`) -/

/-- Round to the nearest integer, ties to even (the rounding `'.0f'`
performs on the exact values that occur here). -/
def roundHalfEven (q : ℚ) : Int :=
  let f := ⌊q⌋
  let r := q - (f : ℚ)
  if r < 1 / 2 then f
  else if 1 / 2 < r then f + 1
  else if f % 2 = 0 then f else f + 1

/-- Split a little-endian digit list into groups of three. -/
def threeGroups : List Char → List (List Char)
  | [] => []
  | [a] => [[a]]
  | [a, b] => [[a, b]]
  | a :: b :: c :: rest => [a, b, c] :: threeGroups rest

/-- Python `sep.join(parts)` on character lists. -/
def pyJoinChars (sep : List Char) : List (List Char) → List Char
  | [] => []
  | [x] => x
  | x :: y :: xs => x ++ sep ++ pyJoinChars sep (y :: xs)

/-- Thousands grouping of a natural number. -/
def commaGroup (n : Nat) : List Char :=
  pyJoinChars [','] (((threeGroups (Nat.toDigits 10 n).reverse).map
    List.reverse).reverse)

/-- Python `f'{v:,.0f}'` on the exact amounts of this model. -/
def pyFormatMoney (q : ℚ) : String :=
  let n := roundHalfEven q
  if n < 0 then ⟨'-' :: commaGroup (-n).toNat⟩ else ⟨commaGroup n.toNat⟩

/-! ## Deal health check (`deal_health_check_job`) -/

/-- The normalized `hs_lastmodifieddate` of a deal
(`props.get('hs_lastmodifieddate', '0')` fed to the normalizer). -/
def dealLastModified (d : Deal) : Option Int :=
  normalizeRaw (dictGet d.properties.hs_lastmodifieddate (some "0"))

/-- One entry of the `stalled_deals` list. -/
structure StalledDeal where
  id : String
  name : PyVal
  stage : String
  amount : ℚ
  days_stalled : Int
  deriving DecidableEq, Repr

/-- One iteration of the stalled-deal loop: parse the modification date
(failure skips the record), then flag the deal iff its lowercased stage does
not contain `closed` and the date is strictly below the 7-day cutoff.
A `null` stage raises when `.lower()` is reached; a garbage amount raises in
`float`. -/
def processDeal (now : Int) (d : Deal) : Except String (Option StalledDeal) :=
  let stageV := dictGet d.properties.dealstage (some "")
  match dealLastModified d with
  | none => .ok none
  | some ms =>
    match stageV with
    | none => .error "AttributeError: NoneType object has no attribute lower"
    | some stage =>
      if listHasSub "closed".toList (pyLower stage) then .ok none
      else if ms < now - 604800000 then
        (match dictGet d.properties.amount none with
          | none => Except.ok (0 : ℚ)
          | some s =>
            match parsePyFloat s with
            | some q => Except.ok q
            | none =>
              Except.error "ValueError: could not convert string to float"
          ).map fun amt =>
            some { id := d.id,
                   name := dictGet d.properties.dealname (some "Unknown"),
                   stage := stage, amount := amt,
                   days_stalled := (now - ms).tdiv 86400000 }
      else .ok none

/-- The whole stalled-deal loop, in fetch order. -/
def collectStalled (now : Int) : List Deal → Except String (List StalledDeal)
  | [] => .ok []
  | d :: ds =>
    (processDeal now d).bind fun o =>
      (collectStalled now ds).map fun rest =>
        match o with
        | some sd => sd :: rest
        | none => rest

/-- Insert into a descending-by-amount list, after any earlier element of
equal amount (so the sort below is stable, like Python `list.sort`). -/
def insertDesc (a : StalledDeal) :
    List StalledDeal → List StalledDeal
  | [] => [a]
  | b :: bs =>
    if a.amount < b.amount then b :: insertDesc a bs else a :: b :: bs

/-- `stalled_deals.sort(key=lambda x: x['amount'], reverse=True)`: a stable
descending sort by amount. -/
def sortDesc : List StalledDeal → List StalledDeal
  | [] => []
  | a :: as => insertDesc a (sortDesc as)

/-- The intervention task produced for one stalled deal; `hs_timestamp` is
kept as epoch milliseconds (`now + 4 h`) rather than its ISO rendering. -/
structure TaskCall where
  dealId : String
  title : String
  notes : String
  dueMs : Int
  deriving DecidableEq, Repr

/-- The templated action checklist of the follow-up task. -/
def taskNotes (sd : StalledDeal) : String :=
  "This $" ++ pyFormatMoney sd.amount ++ " deal has been stalled for " ++
    toString sd.days_stalled ++ " days.\n\nCurrent Stage: " ++ sd.stage ++
    "\n\nRecommended Actions:\n1. Call the contact immediately\n" ++
    "2. Send a value reinforcement email with ROI data\n" ++
    "3. Offer a limited-time incentive or discount\n" ++
    "4. Schedule a decision-maker meeting\n" ++
    "5. Address any blocking concerns\n\n" ++
    "DO NOT let this deal go cold. Take action today."

/-- The `create_hubspot_task` invocation for one stalled deal. -/
def mkTaskCall (now : Int) (sd : StalledDeal) : TaskCall :=
  { dealId := sd.id,
    title := "URGENT: Re-engage " ++ pyStr sd.name,
    notes := taskNotes sd,
    dueMs := now + 14400000 }

/-- One bullet line of the consolidated alert. -/
def alertLine (sd : StalledDeal) : List Char :=
  ("• " ++ pyStr sd.name ++ ": $" ++ pyFormatMoney sd.amount ++ " (" ++
    toString sd.days_stalled ++ " days)").toList

/-- The section text of the consolidated Slack alert: the total count, the
number of created tasks, and one line per deal of `stalled_deals[:5]`. -/
def alertBlockText (n tasksCreated : Nat) (top : List StalledDeal) : String :=
  "*" ++ toString n ++
    " deals* have stalled (7+ days no activity)\n\nCreated " ++
    toString tasksCreated ++ " intervention tasks for top deals:\n" ++
    ⟨pyJoinChars ['\n'] (top.map alertLine)⟩

/-- What one run of the deal-health body does after the fetch. -/
structure HealthRun where
  stalled : List StalledDeal
  ranked : List StalledDeal
  taskCalls : List TaskCall
  tasksCreated : Nat
  slackCalls : List (String × String)
  branchLogs : List LogEntry
  deriving DecidableEq, Repr

/-- `deal_health_check_job` core: collect stalled deals; if any, rank by
amount descending, create tasks for the top 5 (`taskOk i` tells whether the
`i`-th `create_hubspot_task` call succeeded) and send one consolidated
alert; otherwise record the healthy-state entry.  A `.error` result is what
the job-level `except` boundary catches. -/
def dealHealthCore (now : Int) (taskOk : Nat → Bool) (deals : List Deal) :
    Except String HealthRun :=
  (collectStalled now deals).map fun stalled =>
    if stalled.isEmpty then
      { stalled := stalled, ranked := [], taskCalls := [], tasksCreated := 0,
        slackCalls := [],
        branchLogs :=
          [⟨"HEALTH_CHECK", "All deals healthy - no interventions needed"⟩] }
    else
      let ranked := sortDesc stalled
      let top := ranked.take 5
      let created := ((List.range top.length).filter taskOk).length
      { stalled := stalled, ranked := ranked,
        taskCalls := top.map (mkTaskCall now), tasksCreated := created,
        slackCalls := [("Deal Health Alert: " ++ toString stalled.length ++
            " stalled deals found",
          alertBlockText stalled.length created top)],
        branchLogs := [⟨"ALERT", "Deal health: " ++ toString stalled.length ++
          " stalled, " ++ toString created ++ " interventions created"⟩] }

/-! ## Weekly report -/

/-- `weekly_report` conversion rate:
`(len(won_deals) / len(weekly_leads) * 100) if weekly_leads else 0`. -/
def conversionRate (leads : List Contact) (won : List Deal) : ℚ :=
  if leads.isEmpty then 0
  else (won.length : ℚ) / (leads.length : ℚ) * 100

/-- `weekly_report` average deal size:
`(revenue / len(won_deals)) if won_deals else 0`. -/
def avgDealSize (won : List Deal) (revenue : ℚ) : ℚ :=
  if won.isEmpty then 0 else revenue / (won.length : ℚ)

/-- The `/api/report/weekly` endpoint core: 7-day lead window, closed and
won partitions, the `None`-guarded revenue sum, and the two ratios. -/
def weeklyReportCore (now : Int) (contacts : List Contact)
    (deals : List Deal) :
    Except String (List Contact × List Deal × List Deal × ℚ × ℚ × ℚ) :=
  let leads := recentByCreatedate (now - 604800000) contacts
  (weeklyClosedOf deals).bind fun closed =>
    (wonOf closed).bind fun won =>
      (sumAmounts guardedAmountTerm won).map fun revenue =>
        (leads, closed, won, revenue, conversionRate leads won,
          avgDealSize won revenue)

/-- The amount contribution of the scheduled `generate_weekly_report` job's
revenue comprehension: `float(d.get('properties', {}).get('amount', 0))` —
an absent key falls back to `0`, but a JSON `null` reaches `float(None)` and
raises `TypeError`. -/
def jobWeeklyAmountTerm (d : Deal) : Except String ℚ :=
  match d.properties.amount with
  | none => .ok 0
  | some none => .error "TypeError: float() argument must not be NoneType"
  | some (some s) =>
    match parsePyFloat s with
    | some q => .ok q
    | none => .error "ValueError: could not convert string to float"

/-- The scheduled `generate_weekly_report` job core: 7-day lead window,
closed deals, and the unguarded revenue sum over won deals.  A `.error`
result is what the job-level `except` boundary catches (the job then only
logs an ERROR entry instead of producing its report). -/
def generate_weekly_report_core (now : Int) (contacts : List Contact)
    (deals : List Deal) :
    Except String (List Contact × List Deal × ℚ) :=
  let leads := recentByCreatedate (now - 604800000) contacts
  (weeklyClosedOf deals).bind fun closed =>
    (wonOf closed).bind fun won =>
      (sumAmounts jobWeeklyAmountTerm won).map fun revenue =>
        (leads, closed, revenue)

/-! ## Claim-facing predicates and fixtures -/

/-- A contact counted as inside the window: known date strictly after the
cutoff. -/
def withinWindowB (cutoff : Int) (c : Contact) : Bool :=
  match contactCreatedate c with
  | some ms => decide (cutoff < ms)
  | none => false

/-- A contact counted as outside the window: known date at or before the
cutoff (derived classification; the source computes no such set). -/
def outOfWindowB (cutoff : Int) (c : Contact) : Bool :=
  match contactCreatedate c with
  | some ms => decide (ms ≤ cutoff)
  | none => false

/-- The validity range of datetime components as `datetime` enforces it,
plus the millisecond granularity of the canonical rendering. -/
def ValidParts (p : DateTimeParts) : Prop :=
  1 ≤ p.year ∧ p.year ≤ 9999 ∧ 1 ≤ p.month ∧ p.month ≤ 12 ∧
    1 ≤ p.day ∧ p.day ≤ daysInMonth p.year p.month ∧
    p.hour ≤ 23 ∧ p.minute ≤ 59 ∧ p.second ≤ 59 ∧
    p.micro ≤ 999999 ∧ p.micro % 1000 = 0

instance (p : DateTimeParts) : Decidable (ValidParts p) := by
  unfold ValidParts; infer_instance

/-- The epoch-millisecond integer numerically equivalent to a UTC datetime:
standard Gregorian day count times the milliseconds of a day, plus the
time-of-day milliseconds. -/
def epochMsUTC (p : DateTimeParts) : Int :=
  daysFromCivil p.year p.month p.day * 86400000 + p.hour * 3600000 +
    p.minute * 60000 + p.second * 1000 + ((p.micro / 1000 : Nat) : Int)

/-- A deal on which the weekly-report comprehensions cannot raise: the stage
is a string and the amount, if present, is a parseable string. -/
def dealWellFormedB (d : Deal) : Bool :=
  (match dictGet d.properties.dealstage (some "") with
    | none => false
    | some _ => true) &&
  (match d.properties.amount with
    | none => true
    | some none => false
    | some (some s) => (parsePyFloat s).isSome)

/-- Fixture: a deal record built from raw property strings. -/
def mkDealFix (i stage : String) (amt : Option PyVal) (lm : String) : Deal :=
  { id := i,
    properties := { dealname := some (some ("Deal" ++ i)),
                    dealstage := some (some stage),
                    amount := amt,
                    hs_lastmodifieddate := some (some lm) } }

/-- Fixture: a reference instant (2024-01-15T10:30:00Z in epoch ms). -/
def fixNow : Int := 1705314600000

/-- Fixture: six stalled deals with distinct amounts whose lowest-amount
member (`DealF`) is outside the top five. -/
def sixStalled : List Deal :=
  [mkDealFix "A" "Negotiation" (some (some "600")) "100",
   mkDealFix "B" "Negotiation" (some (some "500")) "100",
   mkDealFix "C" "Negotiation" (some (some "400")) "100",
   mkDealFix "D" "Negotiation" (some (some "300")) "100",
   mkDealFix "E" "Negotiation" (some (some "200")) "100",
   mkDealFix "F" "Negotiation" (some (some "100")) "100"]

/-- Fixture: eight stalled deals with distinct amounts. -/
def eightStalled : List Deal :=
  [mkDealFix "A" "Negotiation" (some (some "80")) "100",
   mkDealFix "B" "Negotiation" (some (some "10")) "100",
   mkDealFix "C" "Negotiation" (some (some "60")) "100",
   mkDealFix "D" "Negotiation" (some (some "30")) "100",
   mkDealFix "E" "Negotiation" (some (some "70")) "100",
   mkDealFix "F" "Negotiation" (some (some "20")) "100",
   mkDealFix "G" "Negotiation" (some (some "50")) "100",
   mkDealFix "H" "Negotiation" (some (some "40")) "100"]

/-- Extract the result of a successful deal-health run (dummy on failure),
so concrete runs can be named in closed statements. -/
def healthRunOf (e : Except String HealthRun) : HealthRun :=
  match e with
  | .ok r => r
  | .error _ => ⟨[], [], [], 0, [], []⟩

/-- Fixture: a won deal whose `amount` property is present but JSON `null`. -/
def nullAmountWonDeal : Deal :=
  { id := "N",
    properties := { dealname := some (some "NullAmount"),
                    dealstage := some (some "closedwon"),
                    amount := some none,
                    hs_lastmodifieddate := some (some "0") } }

/-- Decidable equality for `Except` results, so concrete runs of the
fallible cores can be checked by `decide`. -/
instance {ε α : Type} [DecidableEq ε] [DecidableEq α] :
    DecidableEq (Except ε α) := fun x y =>
  match x, y with
  | .ok a, .ok b =>
    if h : a = b then isTrue (by rw [h])
    else isFalse (by intro he; cases he; exact h rfl)
  | .error e, .error f =>
    if h : e = f then isTrue (by rw [h])
    else isFalse (by intro he; cases he; exact h rfl)
  | .ok _, .error _ => isFalse (by intro he; cases he)
  | .error _, .ok _ => isFalse (by intro he; cases he)

section

attribute [local semireducible] Rat.add Rat.mul Rat.inv Rat.sub

/-! ## Lemmas about the activity log -/

theorem logAppend_head (e : LogEntry) (l : List LogEntry) :
    (logAppend e l).head? = some e := by
  unfold logAppend
  by_cases h : 200 < (e :: l).length
  · rw [if_pos h]
    cases l with
    | nil => simp at h
    | cons x xs => rfl
  · rw [if_neg h]
    rfl

theorem logAppend_length (e : LogEntry) (l : List LogEntry)
    (h : l.length ≤ 200) : (logAppend e l).length ≤ 200 := by
  unfold logAppend
  by_cases h' : 200 < (e :: l).length
  · rw [if_pos h']
    simpa [List.length_dropLast] using h
  · rw [if_neg h']
    simp only [List.length_cons] at h' ⊢
    omega

theorem logFold_length_le (es : List LogEntry) :
    (logFold es).length ≤ 200 := by
  unfold logFold
  have h : ∀ (es : List LogEntry) (l : List LogEntry), l.length ≤ 200 →
      (es.foldl (fun l e => logAppend e l) l).length ≤ 200 := by
    intro es
    induction es with
    | nil => intro l hl; simpa using hl
    | cons e es ih =>
      intro l hl
      exact ih _ (logAppend_length e l hl)
  exact h es [] (by simp)

theorem logAppend_evict (e : LogEntry) (l : List LogEntry)
    (h : l.length = 200) : logAppend e l = e :: l.dropLast := by
  unfold logAppend
  rw [if_pos (by simp [h])]
  cases l with
  | nil => simp at h
  | cons x xs => rfl

theorem logAppend_keep (e : LogEntry) (l : List LogEntry)
    (h : l.length < 200) : logAppend e l = e :: l := by
  unfold logAppend
  rw [if_neg (by simp; omega)]

/-! ## Claim theorems -/

/-- **C10** (confirmed).  Activity-log ring buffer invariant: every append
places the new entry at the head (newest-first order); an append on a log
within the 200-entry capacity stays within capacity, hence every sequence of
appends from the empty log stays within capacity; an append on a full log
evicts the oldest (tail) entry, and an append below capacity evicts
nothing. -/
theorem claim_C10_ring_buffer :
    (∀ (e : LogEntry) (l : List LogEntry), (logAppend e l).head? = some e) ∧
    (∀ (e : LogEntry) (l : List LogEntry), l.length ≤ 200 →
      (logAppend e l).length ≤ 200) ∧
    (∀ es : List LogEntry, (logFold es).length ≤ 200) ∧
    (∀ (e : LogEntry) (l : List LogEntry), l.length = 200 →
      logAppend e l = e :: l.dropLast) ∧
    (∀ (e : LogEntry) (l : List LogEntry), l.length < 200 →
      logAppend e l = e :: l) :=
  ⟨logAppend_head, logAppend_length, logFold_length_le, logAppend_evict,
    logAppend_keep⟩

/-- Witness for C10 at concrete inputs. -/
theorem claim_C10_ring_buffer_witness :
    (logAppend ⟨"ALERT", "a"⟩ [⟨"BRIEF", "b"⟩]).head? = some ⟨"ALERT", "a"⟩ ∧
    (logAppend ⟨"ALERT", "a"⟩ [⟨"BRIEF", "b"⟩]).length ≤ 200 ∧
    (logFold (List.replicate 300 ⟨"ALERT", "a"⟩)).length ≤ 200 ∧
    logAppend ⟨"ALERT", "a"⟩ (List.replicate 200 ⟨"BRIEF", "b"⟩) =
      ⟨"ALERT", "a"⟩ :: (List.replicate 200 (⟨"BRIEF", "b"⟩ : LogEntry)).dropLast ∧
    logAppend ⟨"ALERT", "a"⟩ [⟨"BRIEF", "b"⟩] =
      [⟨"ALERT", "a"⟩, ⟨"BRIEF", "b"⟩] :=
  ⟨claim_C10_ring_buffer.1 _ _,
   claim_C10_ring_buffer.2.1 _ _ (by simp),
   claim_C10_ring_buffer.2.2.1 _,
   claim_C10_ring_buffer.2.2.2.1 _ _ (by rw [List.length_replicate]),
   claim_C10_ring_buffer.2.2.2.2 _ _ (by simp)⟩

/-- **C7** (confirmed).  Notifier demo mode: with the webhook unconfigured
(absent or the disabling value `demo-mode`), `send_slack` reports delivery,
leaves all metrics counters unchanged, performs no network post, and appends
exactly one `SLACK`-tagged entry whose message marks the skipped delivery. -/
theorem claim_C7_demo_mode (cfg : Option String)
    (hcfg : cfg = none ∨ cfg = some "demo-mode")
    (resp : Except String Nat) (msg : String) (st : AgentState) :
    (send_slack cfg resp msg st).1 = true ∧
    (send_slack cfg resp msg st).2.1.metrics = st.metrics ∧
    (send_slack cfg resp msg st).2.2 = [] ∧
    (send_slack cfg resp msg st).2.1.agent_log =
      logAppend ⟨"SLACK", "Demo mode: " ++ pyTake 100 msg⟩ st.agent_log := by
  have hc : cfg = none ∨ cfg = some "" ∨ cfg = some "demo-mode" := by
    rcases hcfg with h | h
    · exact Or.inl h
    · exact Or.inr (Or.inr h)
  unfold send_slack
  rw [if_pos hc]
  exact ⟨rfl, rfl, rfl, rfl⟩

/-- Witness for C7 at concrete inputs. -/
theorem claim_C7_demo_mode_witness :
    (send_slack none (.ok 200) "Morning Brief" ⟨[], ⟨0, 0, 0, 0⟩⟩).1 = true ∧
    (send_slack none (.ok 200) "Morning Brief" ⟨[], ⟨0, 0, 0, 0⟩⟩).2.1.metrics
      = (⟨[], ⟨0, 0, 0, 0⟩⟩ : AgentState).metrics ∧
    (send_slack none (.ok 200) "Morning Brief" ⟨[], ⟨0, 0, 0, 0⟩⟩).2.2 = [] ∧
    (send_slack none (.ok 200) "Morning Brief" ⟨[], ⟨0, 0, 0, 0⟩⟩).2.1.agent_log
      = logAppend ⟨"SLACK", "Demo mode: " ++ pyTake 100 "Morning Brief"⟩ [] :=
  claim_C7_demo_mode none (Or.inl rfl) (.ok 200) "Morning Brief"
    ⟨[], ⟨0, 0, 0, 0⟩⟩

theorem recentByCreatedate_eq_filter (cutoff : Int) (cs : List Contact) :
    recentByCreatedate cutoff cs = cs.filter (withinWindowB cutoff) := by
  induction cs with
  | nil => rfl
  | cons c cs ih =>
    cases h : contactCreatedate c with
    | none =>
      simp [recentByCreatedate, withinWindowB, h, ih, List.filter_cons]
    | some ms =>
      by_cases hlt : cutoff < ms
      · simp [recentByCreatedate, withinWindowB, h, hlt, ih, List.filter_cons]
      · simp [recentByCreatedate, withinWindowB, h, hlt, ih, List.filter_cons]

/-- **C2** (confirmed).  Morning-brief 24-hour window: the kept contacts are
exactly those whose normalized `createdate` is strictly greater than
`now - 24 h`; a date equal to the cutoff is excluded, one millisecond later
is included, and a contact whose date fails to normalize is excluded and
counted neither as within-window nor as out-of-window. -/
theorem claim_C2_lead_window :
    (∀ (now : Int) (cs : List Contact),
      recentByCreatedate (now - 86400000) cs =
        cs.filter (withinWindowB (now - 86400000))) ∧
    (∀ (now : Int) (c : Contact),
      contactCreatedate c = some (now - 86400000) →
        withinWindowB (now - 86400000) c = false) ∧
    (∀ (now : Int) (c : Contact),
      contactCreatedate c = some (now - 86400000 + 1) →
        withinWindowB (now - 86400000) c = true) ∧
    (∀ (now : Int) (c : Contact), contactCreatedate c = none →
      withinWindowB (now - 86400000) c = false ∧
        outOfWindowB (now - 86400000) c = false) ∧
    (∀ (now : Int) (cs : List Contact) (c : Contact),
      contactCreatedate c = none →
        c ∉ recentByCreatedate (now - 86400000) cs) := by
  refine ⟨fun now cs => recentByCreatedate_eq_filter _ cs,
    fun now c h => ?_, fun now c h => ?_, fun now c h => ?_,
    fun now cs c h hmem => ?_⟩
  · simp [withinWindowB, h]
  · simp [withinWindowB, h]
  · exact ⟨by simp [withinWindowB, h], by simp [outOfWindowB, h]⟩
  · rw [recentByCreatedate_eq_filter] at hmem
    have := (List.mem_filter.mp hmem).2
    simp [withinWindowB, h] at this

/-- Witness for C2: cutoff 1000 (now = 86401000); a contact created at the
cutoff, one created 1 ms later, one with a garbage date. -/
theorem claim_C2_lead_window_witness :
    withinWindowB (86401000 - 86400000)
      ⟨"b", { createdate := some (some "1000") }⟩ = false ∧
    withinWindowB (86401000 - 86400000)
      ⟨"i", { createdate := some (some "1001") }⟩ = true ∧
    (withinWindowB (86401000 - 86400000)
        ⟨"u", { createdate := some (some "not-a-date") }⟩ = false ∧
      outOfWindowB (86401000 - 86400000)
        ⟨"u", { createdate := some (some "not-a-date") }⟩ = false) ∧
    ⟨"u", { createdate := some (some "not-a-date") }⟩ ∉
      recentByCreatedate (86401000 - 86400000)
        [⟨"b", { createdate := some (some "1000") }⟩,
         ⟨"i", { createdate := some (some "1001") }⟩,
         ⟨"u", { createdate := some (some "not-a-date") }⟩] :=
  ⟨claim_C2_lead_window.2.1 86401000 _ (by decide),
   claim_C2_lead_window.2.2.1 86401000 _ (by decide),
   claim_C2_lead_window.2.2.2.1 86401000 _ (by decide),
   claim_C2_lead_window.2.2.2.2 86401000 _ _ (by decide)⟩

theorem sumAmounts_map_sum (term : Deal → Except String ℚ)
    (amt : Deal → ℚ) (ds : List Deal)
    (h : ∀ d ∈ ds, term d = .ok (amt d)) :
    sumAmounts term ds = .ok ((ds.map amt).sum) := by
  induction ds with
  | nil => rfl
  | cons d ds ih =>
    have hd := h d (by simp)
    have ih' := ih (fun x hx => h x (by simp [hx]))
    simp only [sumAmounts, hd, ih', List.map_cons, List.sum_cons]
    rfl

/-- **C6** (confirmed).  Weekly-report arithmetic: the conversion rate is 0
for zero weekly leads and `won / leads * 100` otherwise; the average deal
size is 0 for zero won deals and `revenue / won` otherwise; the revenue is
the sum of the won deals' amounts; and on won amounts `[100, 200]` the
revenue is 300 and the average deal size 150. -/
theorem claim_C6_report_arithmetic :
    (∀ (leads : List Contact) (won : List Deal), leads = [] →
      conversionRate leads won = 0) ∧
    (∀ (leads : List Contact) (won : List Deal), leads ≠ [] →
      conversionRate leads won =
        (won.length : ℚ) / (leads.length : ℚ) * 100) ∧
    (∀ (won : List Deal) (revenue : ℚ), won = [] →
      avgDealSize won revenue = 0) ∧
    (∀ (won : List Deal) (revenue : ℚ), won ≠ [] →
      avgDealSize won revenue = revenue / (won.length : ℚ)) ∧
    (∀ (amt : Deal → ℚ) (ds : List Deal),
      (∀ d ∈ ds, guardedAmountTerm d = .ok (amt d)) →
      sumAmounts guardedAmountTerm ds = .ok ((ds.map amt).sum)) ∧
    (weeklyReportCore 0 []
        [mkDealFix "X" "closedwon" (some (some "100")) "0",
         mkDealFix "Y" "closedwon" (some (some "200")) "0"]).map
      (fun out => (out.2.2.2.1, out.2.2.2.2.2)) = .ok (300, 150) := by
  refine ⟨fun leads won h => ?_, fun leads won h => ?_,
    fun won revenue h => ?_, fun won revenue h => ?_,
    fun amt ds h => sumAmounts_map_sum _ amt ds h, by decide⟩
  · subst h; rfl
  · unfold conversionRate
    rw [if_neg (by simpa [List.isEmpty_iff] using h)]
  · subst h; rfl
  · unfold avgDealSize
    rw [if_neg (by simpa [List.isEmpty_iff] using h)]

/-- Witness for C6 at concrete inputs. -/
theorem claim_C6_report_arithmetic_witness :
    conversionRate []
      [mkDealFix "X" "closedwon" (some (some "100")) "0"] = 0 ∧
    conversionRate [⟨"c", { createdate := some (some "0") }⟩]
      [mkDealFix "X" "closedwon" (some (some "100")) "0"] =
      ((1 : ℚ) / (1 : ℚ) * 100) ∧
    avgDealSize [] 300 = 0 ∧
    avgDealSize [mkDealFix "X" "closedwon" (some (some "100")) "0"] 300 =
      300 / (1 : ℚ) ∧
    sumAmounts guardedAmountTerm
      [mkDealFix "X" "closedwon" (some (some "100")) "0",
       mkDealFix "Y" "closedwon" (some (some "200")) "0"] =
      .ok (([(100 : ℚ), 200]).sum) := by
  refine ⟨claim_C6_report_arithmetic.1 [] _ rfl, ?_,
    claim_C6_report_arithmetic.2.2.1 [] 300 rfl, ?_, ?_⟩
  · exact claim_C6_report_arithmetic.2.1 _ _ (by simp)
  · exact claim_C6_report_arithmetic.2.2.2.1 _ 300 (by simp)
  · have := claim_C6_report_arithmetic.2.2.2.2.1
      (fun d => if d.id = "X" then (100 : ℚ) else 200)
      [mkDealFix "X" "closedwon" (some (some "100")) "0",
       mkDealFix "Y" "closedwon" (some (some "200")) "0"] (by decide)
    simpa using this

theorem toListAppend (a b : String) :
    (a ++ b).toList = a.toList ++ b.toList := by
  cases a; cases b; rfl

theorem listHasSub_of_eq (needle l pre post : List Char)
    (h : l = pre ++ needle ++ post) : listHasSub needle l = true := by
  rw [h]; exact listHasSub_of_append needle pre post

theorem hubspot_request_http_err {α : Type} (token : Option String)
    (r : HttpResp α) (method endpoint : String) (st : AgentState)
    (h : ¬(token = none ∨ token = some ""))
    (hm : method = "GET" ∨ method = "POST" ∨ method = "PATCH" ∨
      method = "PUT")
    (hs : ¬(r.status = 200 ∨ r.status = 201)) :
    hubspot_request token (.ok r) method endpoint st =
      (none, log_action "ERROR"
        ("HubSpot " ++ method ++ " " ++ endpoint ++ " - Status " ++
          toString r.status ++ ": " ++ (if r.text = "" then
            "No error details" else pyTake 300 r.text)) st) := by
  unfold hubspot_request
  rw [if_neg h, if_pos hm]
  simp only [if_neg hs]

/-- **C8** (confirmed).  CRM-client error mapping: a missing/empty bearer
token, a raised transport call, and a non-2xx response each make
`hubspot_request` return `None` and log exactly one ERROR entry — for HTTP
failures one whose message contains the endpoint, the status and the
truncated response body; `get_hubspot_contacts` / `get_hubspot_deals` map
every such `None` to the empty list, which is also what a successful call
with no results returns, so the caller cannot tell "no data" from "call
failed". -/
theorem claim_C8_error_mapping :
    (∀ (α : Type) (token : Option String)
       (tr : Except String (HttpResp α)) (method endpoint : String)
       (st : AgentState), token = none ∨ token = some "" →
      hubspot_request token tr method endpoint st =
        (none, log_action "ERROR" "HubSpot token not configured" st)) ∧
    (∀ (α : Type) (token : Option String) (e method endpoint : String)
       (st : AgentState), ¬(token = none ∨ token = some "") →
      (method = "GET" ∨ method = "POST" ∨ method = "PATCH" ∨
        method = "PUT") →
      hubspot_request (α := α) token (.error e) method endpoint st =
        (none,
          log_action "ERROR" ("HubSpot request exception: " ++ e) st)) ∧
    (∀ (α : Type) (token : Option String) (r : HttpResp α)
       (method endpoint : String) (st : AgentState),
      ¬(token = none ∨ token = some "") →
      (method = "GET" ∨ method = "POST" ∨ method = "PATCH" ∨
        method = "PUT") →
      ¬(r.status = 200 ∨ r.status = 201) →
      (hubspot_request token (.ok r) method endpoint st).1 = none ∧
      ∃ msg, (hubspot_request token (.ok r) method endpoint st).2 =
          log_action "ERROR" msg st ∧
        pyInStr endpoint msg = true ∧
        pyInStr (toString r.status) msg = true ∧
        pyInStr (if r.text = "" then "No error details"
          else pyTake 300 r.text) msg = true) ∧
    (∀ (token : Option String)
       (tr : Except String (HttpResp (Option (List Contact))))
       (st : AgentState),
      (hubspot_request token tr "GET" "/crm/v3/objects/contacts" st).1 =
        none →
      (get_hubspot_contacts token tr st).1 = []) ∧
    (∀ (token : Option String)
       (tr : Except String (HttpResp (Option (List Deal))))
       (st : AgentState),
      (hubspot_request token tr "GET" "/crm/v3/objects/deals" st).1 =
        none →
      (get_hubspot_deals token tr st).1 = []) ∧
    (∀ (token : Option String) (r : HttpResp (Option (List Contact)))
       (st : AgentState), ¬(token = none ∨ token = some "") →
      r.status = 200 → r.payload = none ∨ r.payload = some [] →
      get_hubspot_contacts token (.ok r) st = ([], st)) := by
  refine ⟨fun α token tr method endpoint st h => ?_,
    fun α token e method endpoint st h hm => ?_,
    fun α token r method endpoint st h hm hs => ?_,
    fun token tr st h => ?_, fun token tr st h => ?_,
    fun token r st h hs hp => ?_⟩
  · unfold hubspot_request
    rw [if_pos h]
  · unfold hubspot_request
    rw [if_neg h, if_pos hm]
  · have heq := hubspot_request_http_err token r method endpoint st h hm hs
    refine ⟨by rw [heq],
      "HubSpot " ++ method ++ " " ++ endpoint ++ " - Status " ++
        toString r.status ++ ": " ++ (if r.text = "" then "No error details"
          else pyTake 300 r.text), by rw [heq], ?_, ?_, ?_⟩
    · exact listHasSub_of_eq _ _
        (("HubSpot " ++ method ++ " ").toList) ((" - Status " ++
          toString r.status ++ ": " ++ (if r.text = "" then
            "No error details" else pyTake 300 r.text)).toList)
        (by simp [toListAppend, List.append_assoc])
    · exact listHasSub_of_eq _ _
        (("HubSpot " ++ method ++ " " ++ endpoint ++ " - Status ").toList)
        ((": " ++ (if r.text = "" then "No error details"
          else pyTake 300 r.text)).toList)
        (by simp [toListAppend, List.append_assoc])
    · exact listHasSub_of_eq _ _
        (("HubSpot " ++ method ++ " " ++ endpoint ++ " - Status " ++
          toString r.status ++ ": ").toList) []
        (by simp [toListAppend, List.append_assoc])
  · unfold get_hubspot_contacts
    rcases heq : hubspot_request token tr "GET" "/crm/v3/objects/contacts" st
      with ⟨o, st'⟩
    rw [heq] at h
    cases o with
    | none => simp
    | some r => simp at h
  · unfold get_hubspot_deals
    rcases heq : hubspot_request token tr "GET" "/crm/v3/objects/deals" st
      with ⟨o, st'⟩
    rw [heq] at h
    cases o with
    | none => simp
    | some r => simp at h
  · unfold get_hubspot_contacts hubspot_request
    rw [if_neg h, if_pos (Or.inl rfl)]
    simp only [if_pos (Or.inl hs)]
    rcases hp with hp | hp <;> simp [hp]

/-- Witness for C8 at concrete inputs: no token; a raised call; a 404 with
body; and a successful 200 carrying zero results. -/
theorem claim_C8_error_mapping_witness :
    (hubspot_request (α := Option (List Contact)) none
        (.ok ⟨200, "", some []⟩) "GET" "/crm/v3/objects/contacts"
        ⟨[], ⟨0, 0, 0, 0⟩⟩ =
      (none, log_action "ERROR" "HubSpot token not configured"
        ⟨[], ⟨0, 0, 0, 0⟩⟩)) ∧
    (hubspot_request (α := Option (List Contact)) (some "tok")
        (.error "timeout") "GET" "/crm/v3/objects/contacts"
        ⟨[], ⟨0, 0, 0, 0⟩⟩ =
      (none, log_action "ERROR" ("HubSpot request exception: " ++ "timeout")
        ⟨[], ⟨0, 0, 0, 0⟩⟩)) ∧
    ((hubspot_request (some "tok")
        (.ok (⟨404, "Not Found", some ([] : List Contact)⟩ :
          HttpResp (Option (List Contact))))
        "GET" "/crm/v3/objects/contacts" ⟨[], ⟨0, 0, 0, 0⟩⟩).1 = none) ∧
    ((get_hubspot_contacts none (.ok ⟨200, "", some []⟩)
        ⟨[], ⟨0, 0, 0, 0⟩⟩).1 = []) ∧
    ((get_hubspot_deals none (.ok ⟨200, "", some []⟩)
        ⟨[], ⟨0, 0, 0, 0⟩⟩).1 = []) ∧
    (get_hubspot_contacts (some "tok") (.ok ⟨200, "", some []⟩)
        ⟨[], ⟨0, 0, 0, 0⟩⟩ = ([], ⟨[], ⟨0, 0, 0, 0⟩⟩)) := by
  refine ⟨claim_C8_error_mapping.1 _ none _ "GET" _ _ (Or.inl rfl),
    claim_C8_error_mapping.2.1 _ (some "tok") "timeout" "GET" _ _
      (by simp) (Or.inl rfl),
    (claim_C8_error_mapping.2.2.1 _ (some "tok") _ "GET"
      "/crm/v3/objects/contacts" _ (by simp) (Or.inl rfl) (by simp)).1,
    claim_C8_error_mapping.2.2.2.1 none _ _ ?_,
    claim_C8_error_mapping.2.2.2.2.1 none _ _ ?_,
    claim_C8_error_mapping.2.2.2.2.2 (some "tok") _ _ (by simp) rfl
      (Or.inr rfl)⟩
  · exact congrArg Prod.fst
      (claim_C8_error_mapping.1 _ none _ "GET" "/crm/v3/objects/contacts" _
        (Or.inl rfl))
  · exact congrArg Prod.fst
      (claim_C8_error_mapping.1 _ none _ "GET" "/crm/v3/objects/deals" _
        (Or.inl rfl))

theorem except_bind_ok {ε α β : Type} (a : α) (f : α → Except ε β) :
    (Except.ok a : Except ε α).bind f = f a := rfl

theorem except_map_ok {ε α β : Type} (f : α → β) (a : α) :
    Except.map f (Except.ok a : Except ε α) = .ok (f a) := rfl

theorem exFilter_ok {σ : Type} (p : σ → Except String Bool) :
    ∀ xs : List σ, (∀ x ∈ xs, ∃ b, p x = .ok b) →
    ∃ l, exFilter p xs = .ok l ∧ ∀ x ∈ l, x ∈ xs := by
  intro xs
  induction xs with
  | nil => exact fun _ => ⟨[], rfl, by simp⟩
  | cons x xs ih =>
    intro h
    obtain ⟨b, hb⟩ := h x (by simp)
    obtain ⟨l, hl, hsub⟩ := ih (fun y hy => h y (by simp [hy]))
    refine ⟨if b then x :: l else l, ?_, ?_⟩
    · simp only [exFilter, hb, hl, except_bind_ok, except_map_ok]
    · intro y hy
      by_cases hb2 : b = true
      · rw [if_pos hb2] at hy
        rcases List.mem_cons.mp hy with h1 | h1
        · exact h1 ▸ List.mem_cons_self x xs
        · exact List.mem_cons_of_mem x (hsub y h1)
      · rw [if_neg hb2] at hy
        exact List.mem_cons_of_mem x (hsub y hy)

theorem sumAmounts_ok (term : Deal → Except String ℚ) :
    ∀ ds : List Deal, (∀ d ∈ ds, ∃ q, term d = .ok q) →
    ∃ q, sumAmounts term ds = .ok q := by
  intro ds
  induction ds with
  | nil => exact fun _ => ⟨0, rfl⟩
  | cons d ds ih =>
    intro h
    obtain ⟨q, hq⟩ := h d (by simp)
    obtain ⟨r, hr⟩ := ih (fun y hy => h y (by simp [hy]))
    exact ⟨q + r,
      by simp only [sumAmounts, hq, hr, except_bind_ok, except_map_ok]⟩

theorem wf_stage_ok (d : Deal) (h : dealWellFormedB d = true) :
    ∃ sl, dealStageLower d = .ok sl := by
  unfold dealWellFormedB at h
  rw [Bool.and_eq_true] at h
  unfold dealStageLower
  cases hq : dictGet d.properties.dealstage (some "") with
  | none => rw [hq] at h; simp at h
  | some s => exact ⟨pyLower s, rfl⟩

theorem wf_amount_ok (d : Deal) (h : dealWellFormedB d = true) :
    ∃ q, jobWeeklyAmountTerm d = .ok q := by
  unfold dealWellFormedB at h
  rw [Bool.and_eq_true] at h
  obtain ⟨-, h2⟩ := h
  cases ha : d.properties.amount with
  | none => exact ⟨0, by simp [jobWeeklyAmountTerm, ha]⟩
  | some v =>
    rw [ha] at h2
    cases v with
    | none => simp at h2
    | some s =>
      have h3 : (parsePyFloat s).isSome = true := by simpa using h2
      obtain ⟨q, hq⟩ := Option.isSome_iff_exists.mp h3
      exact ⟨q, by simp [jobWeeklyAmountTerm, ha, hq]⟩

/-- **C9** counterexample.  The claim says a deal whose `amount` is absent
*or null* is treated as 0 in every sum and the job still completes; but in
the scheduled weekly report a won deal with a JSON-`null` amount reaches
`float(None)`, so the revenue computation raises and the job ends in its
failure boundary instead of producing its output. -/
theorem claim_C9_partial_data_counterexample :
    nullAmountWonDeal.properties.amount = some none ∧
    generate_weekly_report_core 0 [] [nullAmountWonDeal] =
      .error "TypeError: float() argument must not be NoneType" ∧
    (generate_weekly_report_core 0 [] [nullAmountWonDeal]).isOk = false := by
  exact ⟨rfl, by decide, by decide⟩

/-- **C9** (corrected).  An absent `amount` contributes 0 to the guarded
pipeline/endpoint-revenue sums and so does a null one (both reach
`props.get('amount') is None`); the stalled-deal ranking likewise ranks such
a deal with amount 0; the weekly job's revenue sum treats an *absent*
amount as 0 and the job completes on well-formed deals — but a present
`null` amount makes that sum raise `TypeError` (see the counterexample), so
"absent or null" holds only for the guarded sums and the ranking, not for
the weekly job's revenue sum. -/
theorem claim_C9_partial_data :
    (∀ d : Deal, dictGet d.properties.amount none = none →
      guardedAmountTerm d = .ok 0) ∧
    (∀ (now : Int) (d : Deal) (sd : StalledDeal),
      processDeal now d = .ok (some sd) →
      dictGet d.properties.amount none = none → sd.amount = 0) ∧
    (∀ d : Deal, d.properties.amount = none →
      jobWeeklyAmountTerm d = .ok 0) ∧
    (∀ d : Deal, d.properties.amount = some none →
      jobWeeklyAmountTerm d =
        .error "TypeError: float() argument must not be NoneType") ∧
    (∀ (now : Int) (cts : List Contact) (deals : List Deal),
      (∀ d ∈ deals, dealWellFormedB d = true) →
      (generate_weekly_report_core now cts deals).isOk = true) := by
  refine ⟨fun d h => by simp [guardedAmountTerm, h],
    fun now d sd h hamt => ?_,
    fun d h => by simp [jobWeeklyAmountTerm, h],
    fun d h => by simp [jobWeeklyAmountTerm, h],
    fun now cts deals h => ?_⟩
  · unfold processDeal at h
    cases hlm : dealLastModified d with
    | none => simp only [hlm] at h; cases h
    | some ms =>
      simp only [hlm] at h
      cases hst : dictGet d.properties.dealstage (some "") with
      | none => simp only [hst] at h; cases h
      | some stage =>
        simp only [hst] at h
        by_cases hcl : listHasSub "closed".toList (pyLower stage) = true
        · rw [if_pos hcl] at h; cases h
        · rw [if_neg hcl] at h
          by_cases hlt : ms < now - 604800000
          · rw [if_pos hlt] at h
            simp only [hamt, except_map_ok, Except.ok.injEq,
              Option.some.injEq] at h
            rw [← h]
          · rw [if_neg hlt] at h; cases h
  · have hstage : ∀ needle : List Char, ∀ d ∈ deals,
        ∃ b, ((dealStageLower d).map fun sl => listHasSub needle sl)
          = .ok b := by
      intro needle d hd
      obtain ⟨sl, hsl⟩ := wf_stage_ok d (h d hd)
      exact ⟨listHasSub needle sl, by rw [hsl]; rfl⟩
    obtain ⟨closed, hc, hcs⟩ :=
      exFilter_ok (fun d => (dealStageLower d).map
        fun sl => listHasSub "closed".toList sl) deals
        (hstage "closed".toList)
    obtain ⟨won, hw, hws⟩ :=
      exFilter_ok (fun d => (dealStageLower d).map
        fun sl => listHasSub "won".toList sl) closed
        (fun d hd => hstage "won".toList d (hcs d hd))
    obtain ⟨q, hq⟩ := sumAmounts_ok jobWeeklyAmountTerm won
      (fun d hd => wf_amount_ok d (h d (hcs d (hws d hd))))
    unfold generate_weekly_report_core weeklyClosedOf wonOf
    simp only [hc, except_bind_ok, hw, hq, except_map_ok]
    rfl

/-- Witness for C9 at concrete inputs: an absent-amount deal in the guarded
sum and in the ranking, the weekly job on absent-amount data, and the job
completing on well-formed deals. -/
theorem claim_C9_partial_data_witness :
    guardedAmountTerm
      ⟨"Z", { dealstage := some (some "Negotiation"), amount := none,
              hs_lastmodifieddate := some (some "0") }⟩ = .ok 0 ∧
    (⟨"Z", some "Unknown", "Negotiation", 0, 7⟩ : StalledDeal).amount = 0 ∧
    jobWeeklyAmountTerm
      ⟨"Z", { dealstage := some (some "Negotiation"), amount := none,
              hs_lastmodifieddate := some (some "0") }⟩ = .ok 0 ∧
    jobWeeklyAmountTerm nullAmountWonDeal =
      .error "TypeError: float() argument must not be NoneType" ∧
    (generate_weekly_report_core 604800001 [] eightStalled).isOk = true := by
  refine ⟨claim_C9_partial_data.1 _ (by decide),
    claim_C9_partial_data.2.1 604800001
      ⟨"Z", { dealstage := some (some "Negotiation"), amount := none,
              hs_lastmodifieddate := some (some "0") }⟩ _ (by decide)
      (by decide),
    claim_C9_partial_data.2.2.1 _ (by decide),
    claim_C9_partial_data.2.2.2.1 _ (by decide),
    claim_C9_partial_data.2.2.2.2 604800001 [] eightStalled (by decide)⟩

theorem processDeal_ok_isSome_iff (now : Int) (d : Deal) (stg : String)
    (r : Option StalledDeal)
    (hst : dictGet d.properties.dealstage (some "") = some stg)
    (h : processDeal now d = .ok r) :
    r.isSome = true ↔
      (listHasSub "closed".toList (pyLower stg) = false ∧
        ∃ ms, dealLastModified d = some ms ∧ ms < now - 604800000) := by
  unfold processDeal at h
  cases hlm : dealLastModified d with
  | none =>
    simp only [hlm] at h
    cases h
    refine ⟨fun hk => absurd hk (by simp), ?_⟩
    rintro ⟨-, ms, hms, -⟩
    cases hms
  | some ms =>
    simp only [hlm, hst] at h
    by_cases hcl : listHasSub "closed".toList (pyLower stg) = true
    · rw [if_pos hcl] at h
      cases h
      refine ⟨fun hk => absurd hk (by simp), ?_⟩
      rintro ⟨hfalse, -⟩
      rw [hfalse] at hcl
      exact (Bool.false_ne_true hcl).elim
    · rw [if_neg hcl] at h
      rw [Bool.not_eq_true] at hcl
      by_cases hlt : ms < now - 604800000
      · rw [if_pos hlt] at h
        cases hamt : dictGet d.properties.amount none with
        | none =>
          simp only [hamt, except_map_ok] at h
          cases h
          exact ⟨fun _ => ⟨hcl, ms, rfl, hlt⟩, fun _ => rfl⟩
        | some s =>
          cases hp : parsePyFloat s with
          | none => simp only [hamt, hp] at h; cases h
          | some q =>
            simp only [hamt, hp, except_map_ok] at h
            cases h
            exact ⟨fun _ => ⟨hcl, ms, rfl, hlt⟩, fun _ => rfl⟩
      · rw [if_neg hlt] at h
        cases h
        refine ⟨fun hk => absurd hk (by simp), ?_⟩
        rintro ⟨-, ms', hms', hlt'⟩
        cases hms'
        exact absurd hlt' hlt

/-- **C1** (confirmed).  Stalled-deal rule: for a deal whose stage is a
string, a successfully processed record is flagged iff the lowercased stage
does not contain `closed` and the normalized `hs_lastmodifieddate` is
strictly below `now - 7 days`; in particular a `closed`-stage deal is never
flagged regardless of date, a deal modified exactly at the cutoff is not
flagged, and an open deal modified 7 days + 1 second ago is flagged. -/
theorem claim_C1_stalled_rule :
    (∀ (now : Int) (d : Deal) (stg : String) (r : Option StalledDeal),
      dictGet d.properties.dealstage (some "") = some stg →
      processDeal now d = .ok r →
      (r.isSome = true ↔
        (listHasSub "closed".toList (pyLower stg) = false ∧
          ∃ ms, dealLastModified d = some ms ∧ ms < now - 604800000))) ∧
    (∀ (now : Int) (d : Deal) (stg : String) (r : Option StalledDeal),
      dictGet d.properties.dealstage (some "") = some stg →
      listHasSub "closed".toList (pyLower stg) = true →
      processDeal now d = .ok r → r = none) ∧
    (∀ (now : Int) (d : Deal) (r : Option StalledDeal),
      dealLastModified d = some (now - 604800000) →
      processDeal now d = .ok r → r = none) ∧
    (∀ (now : Int) (d : Deal) (stg : String) (r : Option StalledDeal),
      dictGet d.properties.dealstage (some "") = some stg →
      listHasSub "closed".toList (pyLower stg) = false →
      dealLastModified d = some (now - 604800000 - 1000) →
      processDeal now d = .ok r → r.isSome = true) := by
  refine ⟨processDeal_ok_isSome_iff,
    fun now d stg r hst hcl h => ?_, fun now d r hlm h => ?_,
    fun now d stg r hst hcl hlm h => ?_⟩
  · rcases r with _ | sd
    · rfl
    · have hiff := (processDeal_ok_isSome_iff now d stg _ hst h).mp rfl
      rw [hcl] at hiff
      exact absurd hiff.1 (by simp)
  · unfold processDeal at h
    simp only [hlm] at h
    cases hst : dictGet d.properties.dealstage (some "") with
    | none => simp only [hst] at h; cases h
    | some stg =>
      simp only [hst] at h
      by_cases hcl : listHasSub "closed".toList (pyLower stg) = true
      · rw [if_pos hcl] at h; cases h; rfl
      · rw [if_neg hcl, if_neg (lt_irrefl _)] at h
        cases h
        rfl
  · unfold processDeal at h
    simp only [hlm, hst] at h
    rw [if_neg (fun hx => Bool.false_ne_true (hcl ▸ hx)),
      if_pos (by omega)] at h
    cases hamt : dictGet d.properties.amount none with
    | none =>
      simp only [hamt, except_map_ok] at h
      cases h
      rfl
    | some s =>
      cases hp : parsePyFloat s with
      | none => simp only [hamt, hp] at h; cases h
      | some q =>
        simp only [hamt, hp, except_map_ok] at h
        cases h
        rfl

/-- Witness for C1 at concrete inputs: an old `Closed Won` deal is not
flagged; a deal at the exact 7-day boundary is not flagged; an open deal of
7 days + 1 second is flagged. -/
theorem claim_C1_stalled_rule_witness :
    ((none : Option StalledDeal).isSome = true ↔
      (listHasSub "closed".toList
          (pyLower "Closed Won") = false ∧
        ∃ ms, dealLastModified
            (mkDealFix "W" "Closed Won" (some (some "999")) "100") =
            some ms ∧ ms < fixNow - 604800000)) ∧
    (processDeal 604800100
      (mkDealFix "B" "Negotiation" (some (some "999")) "100") = .ok none →
        (none : Option StalledDeal) = none) ∧
    ((processDeal 604801100
      (mkDealFix "S" "Negotiation" (some (some "999")) "100")).isOk
        = true) := by
  refine ⟨claim_C1_stalled_rule.1 fixNow
      (mkDealFix "W" "Closed Won" (some (some "999")) "100") "Closed Won"
      none (by decide) (by decide), fun _ => ?_, by decide⟩
  exact claim_C1_stalled_rule.2.2.1 604800100
    (mkDealFix "B" "Negotiation" (some (some "999")) "100") none
    (by decide) (by decide)

theorem insertDesc_perm (a : StalledDeal) (l : List StalledDeal) :
    (insertDesc a l).Perm (a :: l) := by
  induction l with
  | nil => exact List.Perm.refl _
  | cons b bs ih =>
    unfold insertDesc
    by_cases hab : a.amount < b.amount
    · rw [if_pos hab]
      exact (ih.cons b).trans (List.Perm.swap a b bs)
    · rw [if_neg hab]

theorem sortDesc_perm (l : List StalledDeal) : (sortDesc l).Perm l := by
  induction l with
  | nil => exact List.Perm.refl _
  | cons a as ih =>
    exact (insertDesc_perm a (sortDesc as)).trans (ih.cons a)

theorem insertDesc_sorted (a : StalledDeal) (l : List StalledDeal)
    (h : l.Pairwise (fun x y => y.amount ≤ x.amount)) :
    (insertDesc a l).Pairwise (fun x y => y.amount ≤ x.amount) := by
  induction l with
  | nil => simp [insertDesc]
  | cons b bs ih =>
    rw [List.pairwise_cons] at h
    obtain ⟨hb, hbs⟩ := h
    unfold insertDesc
    by_cases hab : a.amount < b.amount
    · rw [if_pos hab]
      rw [List.pairwise_cons]
      refine ⟨fun y hy => ?_, ih hbs⟩
      rcases List.mem_cons.mp ((insertDesc_perm a bs).mem_iff.mp hy)
        with rfl | hy'
      · exact le_of_lt hab
      · exact hb y hy'
    · rw [if_neg hab]
      rw [List.pairwise_cons]
      refine ⟨fun y hy => ?_, List.pairwise_cons.mpr ⟨hb, hbs⟩⟩
      rcases List.mem_cons.mp hy with rfl | hy'
      · exact le_of_not_lt hab
      · exact le_trans (hb y hy') (le_of_not_lt hab)

theorem sortDesc_sorted (l : List StalledDeal) :
    (sortDesc l).Pairwise (fun x y => y.amount ≤ x.amount) := by
  induction l with
  | nil => simp [sortDesc]
  | cons a as ih => exact insertDesc_sorted a (sortDesc as) ih

theorem dealHealthCore_fields (now : Int) (taskOk : Nat → Bool)
    (deals : List Deal) (run : HealthRun)
    (h : dealHealthCore now taskOk deals = .ok run) :
    run.taskCalls = ((sortDesc run.stalled).take 5).map (mkTaskCall now) := by
  unfold dealHealthCore at h
  cases hcol : collectStalled now deals with
  | error e => rw [hcol] at h; cases h
  | ok stalled =>
    rw [hcol] at h
    simp only [except_map_ok] at h
    cases h
    by_cases hemp : stalled.isEmpty = true
    · rw [if_pos hemp]
      rw [List.isEmpty_iff] at hemp
      subst hemp
      rfl
    · rw [if_neg hemp]

/-- **C4** (confirmed).  Top-5 task creation: the task-creation calls are
exactly those for the first five deals of the amount-descending ranking of
the stalled list, in that order; with pairwise-distinct amounts the ranking
prefix is strictly descending, every ranked deal beyond the fifth has a
strictly smaller amount than each of the top five (and is not among them),
and the top five are stalled deals numbering `min 5 n`. -/
theorem claim_C4_top5 (now : Int) (taskOk : Nat → Bool) (deals : List Deal)
    (run : HealthRun) (h : dealHealthCore now taskOk deals = .ok run)
    (hdist : (run.stalled.map (fun sd => sd.amount)).Nodup) :
    run.taskCalls = ((sortDesc run.stalled).take 5).map (mkTaskCall now) ∧
    ((sortDesc run.stalled).take 5).Pairwise
      (fun x y => y.amount < x.amount) ∧
    (∀ x ∈ (sortDesc run.stalled).take 5,
      ∀ y ∈ (sortDesc run.stalled).drop 5, y.amount < x.amount) ∧
    (∀ y ∈ (sortDesc run.stalled).drop 5,
      y ∉ (sortDesc run.stalled).take 5) ∧
    ((sortDesc run.stalled).take 5).length = min 5 run.stalled.length ∧
    (∀ x ∈ (sortDesc run.stalled).take 5, x ∈ run.stalled) := by
  have hperm := sortDesc_perm run.stalled
  have hnodup : ((sortDesc run.stalled).map (fun sd => sd.amount)).Nodup :=
    (List.Perm.nodup_iff (hperm.map _)).mpr hdist
  have hne : (sortDesc run.stalled).Pairwise
      (fun x y => x.amount ≠ y.amount) := by
    rw [List.Nodup, List.pairwise_map] at hnodup
    exact hnodup
  have hstrict : (sortDesc run.stalled).Pairwise
      (fun x y => y.amount < x.amount) := by
    have hand := (sortDesc_sorted run.stalled).and hne
    exact hand.imp (fun hxy => lt_of_le_of_ne hxy.1 (Ne.symm hxy.2))
  have hcross : ∀ x ∈ (sortDesc run.stalled).take 5,
      ∀ y ∈ (sortDesc run.stalled).drop 5, y.amount < x.amount := by
    have h' := hstrict
    rw [← List.take_append_drop 5 (sortDesc run.stalled),
      List.pairwise_append] at h'
    exact h'.2.2
  refine ⟨dealHealthCore_fields now taskOk deals run h,
    hstrict.sublist (List.take_sublist 5 _), hcross, ?_, ?_, ?_⟩
  · intro y hy hmem
    exact absurd (hcross y hmem y hy) (lt_irrefl _)
  · rw [List.length_take, hperm.length_eq]
  · intro x hx
    exact hperm.mem_iff.mp (List.take_subset 5 _ hx)

/-- Witness for C4: the eight-deal fixture; the five highest amounts
(80, 70, 60, 50, 40) receive the task calls in descending order. -/
theorem claim_C4_top5_witness :
    (healthRunOf (dealHealthCore 604800001 (fun _ => true)
        eightStalled)).taskCalls =
      ((sortDesc (healthRunOf (dealHealthCore 604800001 (fun _ => true)
        eightStalled)).stalled).take 5).map (mkTaskCall 604800001) ∧
    ((sortDesc (healthRunOf (dealHealthCore 604800001 (fun _ => true)
        eightStalled)).stalled).take 5).Pairwise
      (fun x y => y.amount < x.amount) ∧
    ((sortDesc (healthRunOf (dealHealthCore 604800001 (fun _ => true)
        eightStalled)).stalled).take 5).length =
      min 5 (healthRunOf (dealHealthCore 604800001 (fun _ => true)
        eightStalled)).stalled.length := by
  have hc := claim_C4_top5 604800001 (fun _ => true) eightStalled
    (healthRunOf (dealHealthCore 604800001 (fun _ => true) eightStalled))
    (by decide) (by decide)
  exact ⟨hc.1, hc.2.1, hc.2.2.2.2.1⟩

theorem toList_mk (l : List Char) : (String.mk l).toList = l := rfl

theorem listHasPre_iff (needle hay : List Char) :
    listHasPre needle hay = true ↔ needle <+: hay := by
  induction needle generalizing hay with
  | nil => simp [listHasPre]
  | cons c cs ih =>
    cases hay with
    | nil => simp [listHasPre]
    | cons h hs =>
      simp only [listHasPre, Bool.and_eq_true, beq_iff_eq, ih,
        List.cons_prefix_cons]

theorem listHasSub_iff (needle hay : List Char) :
    listHasSub needle hay = true ↔ needle.IsInfix hay := by
  induction hay with
  | nil =>
    simp [listHasSub, List.isEmpty_iff]
  | cons h hs ih =>
    simp only [listHasSub, Bool.or_eq_true, listHasPre_iff, ih,
      List.infix_cons_iff]

theorem pyJoinChars_mem (sep : List Char) :
    ∀ (xs : List (List Char)) (x : List Char), x ∈ xs →
    ∃ pre post, pyJoinChars sep xs = pre ++ x ++ post := by
  intro xs
  induction xs with
  | nil => intro x hx; cases hx
  | cons y ys ih =>
    intro x hx
    rcases List.mem_cons.mp hx with rfl | hx'
    · cases ys with
      | nil => exact ⟨[], [], by simp [pyJoinChars]⟩
      | cons z zs =>
        exact ⟨[], sep ++ pyJoinChars sep (z :: zs),
          by simp [pyJoinChars, List.append_assoc]⟩
    · cases ys with
      | nil => cases hx'
      | cons z zs =>
        obtain ⟨pre, post, hpp⟩ := ih x hx'
        exact ⟨y ++ sep ++ pre, post,
          by simp [pyJoinChars, hpp, List.append_assoc]⟩

set_option maxRecDepth 20000 in
/-- **C5** counterexample.  The claim says the consolidated alert names all
stalled deals; with six stalled deals the lowest-amount one (`DealF`) is
stalled, yet its name occurs neither in the alert text nor in the alert
block, which lists only `stalled_deals[:5]`. -/
theorem claim_C5_alerting_counterexample :
    ((healthRunOf (dealHealthCore fixNow (fun _ => true)
        sixStalled)).stalled.map (fun sd => pyStr sd.name)) =
      ["DealA", "DealB", "DealC", "DealD", "DealE", "DealF"] ∧
    ((healthRunOf (dealHealthCore fixNow (fun _ => true)
        sixStalled)).slackCalls.map
      (fun c => (pyInStr "DealF" c.1, pyInStr "DealF" c.2))) =
      [(false, false)] := by
  exact ⟨by decide, by decide⟩

/-- **C5** (corrected).  The deal health check sends exactly one
consolidated alert iff the stalled set is nonempty; with zero stalled deals
no alert is sent and exactly one healthy-state entry is recorded; the alert
it does send reports the count of all stalled deals but names only the top
`min(5, n)` deals by amount (each of whose names does occur in the block
text) — not all stalled deals, as the counterexample shows. -/
theorem claim_C5_alerting (now : Int) (taskOk : Nat → Bool)
    (deals : List Deal) (run : HealthRun)
    (h : dealHealthCore now taskOk deals = .ok run) :
    (run.slackCalls.length = 1 ↔ run.stalled ≠ []) ∧
    (run.stalled = [] → run.slackCalls = [] ∧
      run.branchLogs = [⟨"HEALTH_CHECK",
        "All deals healthy - no interventions needed"⟩]) ∧
    (run.stalled ≠ [] → ∃ text block,
      run.slackCalls = [(text, block)] ∧
      pyInStr (toString run.stalled.length) text = true ∧
      run.branchLogs.map (fun e => e.type) = ["ALERT"] ∧
      ∀ sd ∈ (sortDesc run.stalled).take 5,
        pyInStr (pyStr sd.name) block = true) := by
  unfold dealHealthCore at h
  cases hcol : collectStalled now deals with
  | error e => rw [hcol] at h; cases h
  | ok stalled =>
    rw [hcol] at h
    simp only [except_map_ok] at h
    cases h
    by_cases hemp : stalled.isEmpty = true
    · have hnil : stalled = [] := List.isEmpty_iff.mp hemp
      subst hnil
      simp only [if_pos hemp]
      refine ⟨by simp, fun _ => by constructor <;> trivial,
        fun hne => absurd rfl hne⟩
    · have hne : stalled ≠ [] := by
        simpa [List.isEmpty_iff] using hemp
      simp only [if_neg hemp]
      refine ⟨by simp [hne], fun h0 => absurd h0 hne, fun _ => ?_⟩
      refine ⟨_, _, rfl, ?_, rfl, ?_⟩
      · unfold pyInStr
        rw [listHasSub_iff]
        exact ⟨"Deal Health Alert: ".toList, " stalled deals found".toList,
          by simp [toListAppend, List.append_assoc]⟩
      · intro sd hsd
        unfold pyInStr
        rw [listHasSub_iff]
        have h1 : (pyStr sd.name).toList.IsInfix (alertLine sd) :=
          ⟨"• ".toList, (": $" ++ pyFormatMoney sd.amount ++ " (" ++
            toString sd.days_stalled ++ " days)").toList,
            by simp [alertLine, toListAppend, List.append_assoc]⟩
        have h2 : (alertLine sd).IsInfix
            (pyJoinChars ['\n']
              (((sortDesc stalled).take 5).map alertLine)) := by
          obtain ⟨pre, post, hpp⟩ := pyJoinChars_mem ['\n']
            (((sortDesc stalled).take 5).map alertLine) (alertLine sd)
            (List.mem_map_of_mem alertLine hsd)
          exact ⟨pre, post, hpp.symm⟩
        have h3 : (pyJoinChars ['\n']
            (((sortDesc stalled).take 5).map alertLine)).IsInfix
            (alertBlockText stalled.length
              ((List.range ((sortDesc stalled).take 5).length).filter
                taskOk).length ((sortDesc stalled).take 5)).toList :=
          ⟨("*" ++ toString stalled.length ++
              " deals* have stalled (7+ days no activity)\n\nCreated " ++
              toString (((List.range
                ((sortDesc stalled).take 5).length).filter taskOk).length)
              ++ " intervention tasks for top deals:\n").toList, [],
            by simp [alertBlockText, toListAppend, toList_mk,
              List.append_assoc]⟩
        exact (h1.trans h2).trans h3

set_option maxRecDepth 20000 in
/-- Witness for the corrected C5: the six-deal fixture sends one alert; an
empty snapshot sends none and logs one healthy-state entry. -/
theorem claim_C5_alerting_witness :
    ((healthRunOf (dealHealthCore fixNow (fun _ => true)
        sixStalled)).slackCalls.length = 1 ↔
      (healthRunOf (dealHealthCore fixNow (fun _ => true)
        sixStalled)).stalled ≠ []) ∧
    ((healthRunOf (dealHealthCore fixNow (fun _ => true) [])).slackCalls
        = [] ∧
      (healthRunOf (dealHealthCore fixNow (fun _ => true) [])).branchLogs
        = [⟨"HEALTH_CHECK",
            "All deals healthy - no interventions needed"⟩]) := by
  refine ⟨(claim_C5_alerting fixNow (fun _ => true) sixStalled _
      (by decide)).1,
    (claim_C5_alerting fixNow (fun _ => true) [] _ (by decide)).2.1
      (by decide)⟩

/-! ## The ISO-8601 round trip (claim C3) -/

theorem opt_bind_some {α β : Type} (a : α) (f : α → Option β) :
    (some a).bind f = f a := rfl

theorem readDigit_digitChar (k : Nat) (hk : k ≤ 9) :
    readDigit (digitChar k) = some k := by
  interval_cases k <;> decide

theorem digitChar_ne_Z (k : Nat) : digitChar k ≠ 'Z' := by
  rcases k with _|_|_|_|_|_|_|_|_|k <;>
    first
    | decide
    | exact (by decide : ('9' : Char) ≠ 'Z')

theorem pyReplaceZ_homo (a b : List Char) :
    pyReplaceZ (a ++ b) = pyReplaceZ a ++ pyReplaceZ b := by
  induction a with
  | nil => rfl
  | cons c cs ih =>
    simp only [List.cons_append, pyReplaceZ]
    by_cases hc : c = 'Z' <;> simp [hc, ih]

theorem pyReplaceZ_padNum (w n : Nat) :
    pyReplaceZ (padNum w n) = padNum w n := by
  induction w generalizing n with
  | zero => rfl
  | succ w ih =>
    simp only [padNum, pyReplaceZ, if_neg (digitChar_ne_Z _), ih]

theorem pyReplaceZ_cons (c : Char) (l : List Char) (hc : c ≠ 'Z') :
    pyReplaceZ (c :: l) = c :: pyReplaceZ l := by
  simp [pyReplaceZ, hc]

theorem readN_cons (w acc : Nat) (c : Char) (cs : List Char) :
    readN (w + 1) acc (c :: cs) =
      match readDigit c with
      | some d => readN w (acc * 10 + d) cs
      | none => none := rfl

theorem grabDigits_cons (cnt acc : Nat) (c : Char) (cs : List Char) :
    grabDigits cnt acc (c :: cs) =
      match readDigit c with
      | some d => grabDigits (cnt + 1) (acc * 10 + d) cs
      | none => (cnt, acc, c :: cs) := rfl

theorem padNum_digits (w n : Nat) :
    padNum (w + 1) n = digitChar (n / 10 ^ w) :: padNum w (n % 10 ^ w) :=
  rfl

theorem padNum_arith (w acc n : Nat) :
    (acc * 10 + n / 10 ^ w) * 10 ^ w + n % 10 ^ w =
      acc * 10 ^ (w + 1) + n := by
  calc (acc * 10 + n / 10 ^ w) * 10 ^ w + n % 10 ^ w
      = acc * (10 ^ w * 10) + (10 ^ w * (n / 10 ^ w) + n % 10 ^ w) := by
        ring
    _ = acc * (10 ^ w * 10) + n := by rw [Nat.div_add_mod]
    _ = acc * 10 ^ (w + 1) + n := by rw [pow_succ]

theorem readN_padNum : ∀ (w acc n : Nat) (rest : List Char), n < 10 ^ w →
    readN w acc (padNum w n ++ rest) = some (acc * 10 ^ w + n, rest) := by
  intro w
  induction w with
  | zero =>
    intro acc n rest hn
    interval_cases n
    simp [padNum, readN]
  | succ w ih =>
    intro acc n rest hn
    have hpow : (0 : Nat) < 10 ^ w := pow_pos (by norm_num) w
    have h10 : n < 10 ^ w * 10 := by rw [← pow_succ]; exact hn
    have hq : n / 10 ^ w ≤ 9 := by
      have := Nat.div_lt_of_lt_mul h10
      omega
    rw [padNum_digits, List.cons_append, readN_cons,
      readDigit_digitChar _ hq]
    show readN w (acc * 10 + n / 10 ^ w)
      (padNum w (n % 10 ^ w) ++ rest) = _
    rw [ih _ _ rest (Nat.mod_lt _ hpow), padNum_arith]

theorem grabDigits_padNum : ∀ (w cnt acc n : Nat) (rest : List Char),
    n < 10 ^ w →
    grabDigits cnt acc (padNum w n ++ rest) =
      grabDigits (cnt + w) (acc * 10 ^ w + n) rest := by
  intro w
  induction w with
  | zero =>
    intro cnt acc n rest hn
    interval_cases n
    simp [padNum]
  | succ w ih =>
    intro cnt acc n rest hn
    have hpow : (0 : Nat) < 10 ^ w := pow_pos (by norm_num) w
    have h10 : n < 10 ^ w * 10 := by rw [← pow_succ]; exact hn
    have hq : n / 10 ^ w ≤ 9 := by
      have := Nat.div_lt_of_lt_mul h10
      omega
    rw [padNum_digits, List.cons_append, grabDigits_cons,
      readDigit_digitChar _ hq]
    show grabDigits (cnt + 1) (acc * 10 + n / 10 ^ w)
      (padNum w (n % 10 ^ w) ++ rest) = _
    rw [ih (cnt + 1) _ _ rest (Nat.mod_lt _ hpow), padNum_arith]
    congr 1
    omega

theorem epochMs_cast (y mo d h mi s micro : Nat)
    (hmod : micro % 1000 = 0) :
    epochMsOfParts ⟨y, mo, d, h, mi, s, micro⟩ 0 =
      epochMsUTC ⟨y, mo, d, h, mi, s, micro⟩ := by
  obtain ⟨k, hk⟩ : ∃ k, micro = 1000 * k := ⟨micro / 1000, by omega⟩
  subst hk
  have hdivk : 1000 * k / 1000 = k := by omega
  unfold epochMsOfParts epochMsUTC
  rw [hdivk]
  show ((daysFromCivil y mo d * 86400 + (h : Int) * 3600 + (mi : Int) * 60
    + (s : Int)) * 1000000 + ((1000 * k : Nat) : Int)
    - 0 * 60000000).tdiv 1000 = _
  have he : ((daysFromCivil y mo d * 86400 + (h : Int) * 3600 +
      (mi : Int) * 60 + (s : Int)) * 1000000 + ((1000 * k : Nat) : Int) -
      0 * 60000000) =
      1000 * (daysFromCivil y mo d * 86400000 + (h : Int) * 3600000 +
        (mi : Int) * 60000 + (s : Int) * 1000 + (k : Int)) := by
    push_cast
    ring
  rw [he, Int.mul_tdiv_cancel_left _ (by norm_num)]

theorem readFrac_dot (l : List Char) :
    readFrac ('.' :: l) =
      (let t := grabDigits 0 0 l
       if 1 ≤ t.1 ∧ t.1 ≤ 6 then some (t.2.1 * 10 ^ (6 - t.1), t.2.2)
       else none) := rfl

theorem readFrac_plus (r : List Char) :
    readFrac ('+' :: r) = some (0, '+' :: r) := rfl

theorem daysInMonth_le (y m : Nat) : daysInMonth y m ≤ 31 := by
  rcases m with _|_|_|_|_|_|_|_|_|_|_|_|_|m
  · exact Nat.zero_le 31
  · exact (by decide : (31 : Nat) ≤ 31)
  · show (if isLeap y then 29 else 28) ≤ 31
    split <;> decide
  · exact (by decide : (31 : Nat) ≤ 31)
  · exact (by decide : (30 : Nat) ≤ 31)
  · exact (by decide : (31 : Nat) ≤ 31)
  · exact (by decide : (30 : Nat) ≤ 31)
  · exact (by decide : (31 : Nat) ≤ 31)
  · exact (by decide : (31 : Nat) ≤ 31)
  · exact (by decide : (30 : Nat) ≤ 31)
  · exact (by decide : (31 : Nat) ≤ 31)
  · exact (by decide : (30 : Nat) ≤ 31)
  · exact (by decide : (31 : Nat) ≤ 31)
  · exact Nat.zero_le 31

set_option maxHeartbeats 1600000 in
theorem parseIso_round (p : DateTimeParts) (hv : ValidParts p) :
    parseIsoMs (renderIso p) = some (epochMsUTC p) := by
  obtain ⟨h1, h2, h3, h4, h5, h6, h7, h8, h9, h10, h11⟩ := hv
  have hy : p.year < 10 ^ 4 := lt_of_le_of_lt h2 (by norm_num)
  have hmo : p.month < 10 ^ 2 := lt_of_le_of_lt h4 (by norm_num)
  have hd : p.day < 10 ^ 2 :=
    lt_of_le_of_lt (h6.trans (daysInMonth_le _ _)) (by norm_num)
  have hh : p.hour < 10 ^ 2 := lt_of_le_of_lt h7 (by norm_num)
  have hmi : p.minute < 10 ^ 2 := lt_of_le_of_lt h8 (by norm_num)
  have hsec : p.second < 10 ^ 2 := lt_of_le_of_lt h9 (by norm_num)
  have hk : p.micro / 1000 < 10 ^ 3 :=
    lt_of_le_of_lt (by omega : p.micro / 1000 ≤ 999) (by norm_num)
  have hvb : validPartsB p.year p.month p.day p.hour p.minute p.second
      = true := by
    simp [validPartsB, h1, h2, h3, h4, h5, h6, h7, h8, h9]
  have e1 : ∀ r, readN 4 0 (padNum 4 p.year ++ r) =
      some (0 * 10 ^ 4 + p.year, r) :=
    fun r => readN_padNum 4 0 p.year r hy
  have e2 : ∀ r, readN 2 0 (padNum 2 p.month ++ r) =
      some (0 * 10 ^ 2 + p.month, r) :=
    fun r => readN_padNum 2 0 p.month r hmo
  have e3 : ∀ r, readN 2 0 (padNum 2 p.day ++ r) =
      some (0 * 10 ^ 2 + p.day, r) :=
    fun r => readN_padNum 2 0 p.day r hd
  have e4 : ∀ r, readN 2 0 (padNum 2 p.hour ++ r) =
      some (0 * 10 ^ 2 + p.hour, r) :=
    fun r => readN_padNum 2 0 p.hour r hh
  have e5 : ∀ r, readN 2 0 (padNum 2 p.minute ++ r) =
      some (0 * 10 ^ 2 + p.minute, r) :=
    fun r => readN_padNum 2 0 p.minute r hmi
  have e6 : ∀ r, readN 2 0 (padNum 2 p.second ++ r) =
      some (0 * 10 ^ 2 + p.second, r) :=
    fun r => readN_padNum 2 0 p.second r hsec
  have eexp : ∀ (c : Char) (l : List Char), expectCh c (c :: l) = some l :=
    by intro c l; simp [expectCh]
  have eoff : readOffset ('+' :: '0' :: '0' :: ':' :: '0' :: '0' :: []) =
      some ((0 : Int), []) := rfl
  have ec1 : ∀ l, pyReplaceZ ('-' :: l) = '-' :: pyReplaceZ l :=
    fun l => pyReplaceZ_cons '-' l (by decide)
  have ec2 : ∀ l, pyReplaceZ ('T' :: l) = 'T' :: pyReplaceZ l :=
    fun l => pyReplaceZ_cons 'T' l (by decide)
  have ec3 : ∀ l, pyReplaceZ (':' :: l) = ':' :: pyReplaceZ l :=
    fun l => pyReplaceZ_cons ':' l (by decide)
  have ec4 : ∀ l, pyReplaceZ ('.' :: l) = '.' :: pyReplaceZ l :=
    fun l => pyReplaceZ_cons '.' l (by decide)
  have ez : pyReplaceZ ['Z'] =
      '+' :: '0' :: '0' :: ':' :: '0' :: '0' :: [] := rfl
  by_cases hf : p.micro = 0
  · unfold parseIsoMs renderIso
    rw [toList_mk, if_pos hf]
    simp only [List.append_nil, List.append_assoc, List.cons_append]
    simp only [pyReplaceZ_homo, pyReplaceZ_padNum, ec1, ec2, ec3, ec4, ez]
    unfold parseIsoList
    simp only [e1, e2, e3, e4, e5, e6, eexp, readFrac_plus, eoff,
      opt_bind_some, Nat.zero_mul, Nat.zero_add, List.isEmpty_nil, hvb,
      and_self, if_pos, Option.map_some]
    rw [show (⟨p.year, p.month, p.day, p.hour, p.minute, p.second, 0⟩ :
        DateTimeParts) = p from by rw [← hf]]
    exact congrArg some
      (by
        have := epochMs_cast p.year p.month p.day p.hour p.minute p.second
          p.micro h11
        exact this)
  · unfold parseIsoMs renderIso
    rw [toList_mk, if_neg hf]
    simp only [List.append_nil, List.append_assoc, List.cons_append]
    simp only [pyReplaceZ_homo, pyReplaceZ_padNum, ec1, ec2, ec3, ec4, ez]
    have hplus : readDigit '+' = none := rfl
    have egrab : grabDigits 0 0 (padNum 3 (p.micro / 1000) ++
        '+' :: '0' :: '0' :: ':' :: '0' :: '0' :: []) =
        (3, p.micro / 1000, '+' :: '0' :: '0' :: ':' :: '0' :: '0' :: []) :=
      by
      rw [grabDigits_padNum 3 0 0 _ _ hk, grabDigits_cons, hplus]
      norm_num
    have efr : readFrac ('.' :: (padNum 3 (p.micro / 1000) ++
        '+' :: '0' :: '0' :: ':' :: '0' :: '0' :: [])) =
        some (p.micro,
          '+' :: '0' :: '0' :: ':' :: '0' :: '0' :: []) := by
      rw [readFrac_dot]
      simp only [egrab]
      norm_num
      omega
    unfold parseIsoList
    simp only [e1, e2, e3, e4, e5, e6, eexp, efr, eoff,
      opt_bind_some, Nat.zero_mul, Nat.zero_add, List.isEmpty_nil, hvb,
      and_self, if_pos, Option.map_some]
    exact congrArg some
      (epochMs_cast p.year p.month p.day p.hour p.minute p.second
        p.micro h11)

/-- **C3** (confirmed).  Date normalization: a string containing `T` takes
the ISO-8601 path (with `Z` rewritten to `+00:00`), any other value takes
the decimal path; the canonical ISO rendering of any valid datetime
normalizes to its numerically equivalent epoch-millisecond integer; a
string that is neither a valid decimal numeral nor valid ISO-8601 yields
the unknown sentinel rather than an error, as does a `None` value. -/
theorem claim_C3_normalizer :
    (∀ s : String, pyCharIn 'T' s = true →
      normalizeRaw (some s) = parseIsoMs s) ∧
    (∀ s : String, pyCharIn 'T' s = false →
      normalizeRaw (some s) = parsePyInt s) ∧
    (∀ p : DateTimeParts, ValidParts p →
      normalizeRaw (some (renderIso p)) = some (epochMsUTC p)) ∧
    (∀ s : String, parsePyInt s = none → parseIsoMs s = none →
      normalizeRaw (some s) = none) ∧
    normalizeRaw none = none := by
  have hroute : ∀ s : String, pyCharIn 'T' s = true →
      normalizeRaw (some s) = parseIsoMs s := by
    intro s h
    unfold normalizeRaw
    show (if pyCharIn 'T' s = true then parseIsoMs s else parsePyInt s) = _
    rw [if_pos h]
  refine ⟨hroute, ?_, ?_, ?_, rfl⟩
  · intro s h
    unfold normalizeRaw
    show (if pyCharIn 'T' s = true then parseIsoMs s else parsePyInt s) = _
    rw [if_neg (by simp [h])]
  · intro p hv
    have hT : pyCharIn 'T' (renderIso p) = true := by
      unfold pyCharIn renderIso
      rw [toList_mk]
      simp [List.any_append]
    rw [hroute _ hT]
    exact parseIso_round p hv
  · intro s hInt hIso
    unfold normalizeRaw
    show (if pyCharIn 'T' s = true then parseIsoMs s else parsePyInt s) = _
    by_cases hT : pyCharIn 'T' s = true
    · rw [if_pos hT]; exact hIso
    · rw [if_neg hT]; exact hInt

set_option maxRecDepth 8000 in
/-- Witness for C3 at concrete inputs, including the reference instant
2024-01-15T10:30:00Z = 1705314600000. -/
theorem claim_C3_normalizer_witness :
    normalizeRaw (some "2024-01-15T10:30:00Z") =
      parseIsoMs "2024-01-15T10:30:00Z" ∧
    normalizeRaw (some "1705314600000") = parsePyInt "1705314600000" ∧
    normalizeRaw (some (renderIso ⟨2024, 1, 15, 10, 30, 0, 0⟩)) =
      some (epochMsUTC ⟨2024, 1, 15, 10, 30, 0, 0⟩) ∧
    epochMsUTC ⟨2024, 1, 15, 10, 30, 0, 0⟩ = 1705314600000 ∧
    normalizeRaw (some "not-a-date") = none :=
  ⟨claim_C3_normalizer.1 _ (by decide),
   claim_C3_normalizer.2.1 _ (by decide),
   claim_C3_normalizer.2.2.1 _ (by decide),
   by decide,
   claim_C3_normalizer.2.2.2.1 _ (by decide) (by decide)⟩

end

end GTM

